import Mathlib

/-!
Verification development for the sitebuilder static-site build tool.

The definitions below are a shallow embedding of the Python sources
(`src/sitebuilder/__init__.py`, `actions.py`, `urls.py`, `resources.py`,
`logging.py`).  Filesystem contents are modelled explicitly: a file is a
string, a directory is a list of (relative path, content) pairs, and the
build operates on those values.  Python exceptions are modelled with the
`PyExc` type; a function that can raise returns `Except PyExc _`.
Source paths are represented relative to the source directory (the build
only ever uses `source.relative_to(srcdir)`).
-/

/-- Python `str.startswith`: `p.data.isPrefixOf s.data`. -/
def pyStartsWith (s p : String) : Bool :=
  p.data.isPrefixOf s.data

/-- Python `str.endswith`. -/
def pyEndsWith (s p : String) : Bool :=
  p.data.isSuffixOf s.data

/-- Python `str.removesuffix` on character lists: drop the suffix when present. -/
def removesuffixChars (s suffix : List Char) : List Char :=
  if suffix.isSuffixOf s then s.take (s.length - suffix.length) else s

/-- Python `str.removesuffix`. -/
def pyRemovesuffix (s suffix : String) : String :=
  String.mk (removesuffixChars s.data suffix.data)

/-- Python `str.removeprefix` (drop the given leading text when present). -/
def removeprefixPy (s pre : String) : String :=
  if pre.data.isPrefixOf s.data then String.mk (s.data.drop pre.data.length) else s

/-- Splitting a file into lines the way Python file iteration does:
each line keeps its trailing newline; a final unterminated line is kept as is;
the empty file has no lines. -/
def pyLinesChars : List Char → List (List Char)
  | [] => []
  | c :: cs =>
    if c = '\n' then ['\n'] :: pyLinesChars cs
    else
      match pyLinesChars cs with
      | [] => [[c]]
      | l :: ls => (c :: l) :: ls

/-- Python-style line splitting of a file content string (lines keep `\n`). -/
def pyLines (s : String) : List String :=
  (pyLinesChars s.data).map String.mk

/-- Substring containment test (used to state facts about generated HTML). -/
def strContains (s sub : String) : Bool :=
  decide (List.IsInfix sub.data s.data)

/-- Python `str.rfind` for a single character: index of the last occurrence,
`-1` when absent. -/
def pyRfind : List Char → Char → Int
  | [], _ => -1
  | x :: xs, c =>
    let r := pyRfind xs c
    if 0 ≤ r then r + 1 else if x = c then 0 else -1

instance {ε α : Type} [DecidableEq ε] [DecidableEq α] : DecidableEq (Except ε α) := fun a b =>
  match a, b with
  | .ok x, .ok y => decidable_of_iff (x = y) (by simp)
  | .error x, .error y => decidable_of_iff (x = y) (by simp)
  | .ok _, .error _ => isFalse (by simp)
  | .error _, .ok _ => isFalse (by simp)

/-- Python exceptions raised by the modelled code. -/
inductive PyExc where
  | valueError (msg : String)
  | runtimeError (msg : String)
  | fileExistsError (msg : String)
  | fileNotFoundError (msg : String)
  | stopIteration
deriving DecidableEq, Repr

/-- `UrlPath` from `urls.py`: a frozen dataclass holding one string field,
ordered by that field. -/
structure UrlPath where
  path : String
deriving DecidableEq, Repr

/-- `UrlPath.__post_init__`: construction raises `ValueError` unless the
string starts with `/`. -/
def UrlPath.make (s : String) : Except PyExc UrlPath :=
  if pyStartsWith s "/" then .ok ⟨s⟩ else .error (.valueError ("path must be absolute: " ++ s))

theorem UrlPath.path_injective : Function.Injective UrlPath.path := by
  intro a b h
  cases a; cases b; simpa using h

theorem UrlPath.pathData_injective : Function.Injective (fun u : UrlPath => u.path.data) := by
  intro a b h
  obtain ⟨⟨da⟩⟩ := a
  obtain ⟨⟨db⟩⟩ := b
  simp only at h
  subst h
  rfl

/-- Python compares strings (and hence `UrlPath` dataclass instances) by
code points, which is lexicographic order on the character list. -/
instance : LinearOrder UrlPath :=
  LinearOrder.lift' (fun u : UrlPath => u.path.data) UrlPath.pathData_injective

theorem urlPath_le_iff (a b : UrlPath) : a ≤ b ↔ a.path.data ≤ b.path.data := Iff.rfl

/-- Two permuted lists have the same insertion sort (Python's `sorted` is a
function of the underlying set only). -/
theorem insertionSort_perm_eq {l l2 : List UrlPath} (h : l.Perm l2) :
    List.insertionSort (fun a b => a ≤ b) l = List.insertionSort (fun a b => a ≤ b) l2 :=
  List.eq_of_perm_of_sorted
    ((List.perm_insertionSort _ l).trans (h.trans (List.perm_insertionSort _ l2).symm))
    (List.sorted_insertionSort _ l) (List.sorted_insertionSort _ l2)

/-- Python `sorted` on a set of `UrlPath` values: the sorted list of its
elements. -/
def sortedUrlList (s : Finset UrlPath) : List UrlPath :=
  Quotient.liftOn s.val (fun l => List.insertionSort (fun a b => a ≤ b) l)
    (fun _ _ h => insertionSort_perm_eq h)

theorem sortedUrlList_sorted (s : Finset UrlPath) :
    List.Sorted (fun a b => a ≤ b) (sortedUrlList s) := by
  obtain ⟨m, hm⟩ := s
  induction m using Quotient.inductionOn
  exact List.sorted_insertionSort _ _

theorem mem_sortedUrlList (s : Finset UrlPath) (a : UrlPath) :
    a ∈ sortedUrlList s ↔ a ∈ s := by
  obtain ⟨m, hm⟩ := s
  induction m using Quotient.inductionOn
  case _ l =>
  exact (List.perm_insertionSort _ l).mem_iff

theorem sortedUrlList_nodup (s : Finset UrlPath) : (sortedUrlList s).Nodup := by
  obtain ⟨m, hm⟩ := s
  induction m using Quotient.inductionOn
  case _ l =>
  exact (List.perm_insertionSort _ l).nodup_iff.mpr hm

theorem sortedUrlList_toFinset (s : Finset UrlPath) : (sortedUrlList s).toFinset = s := by
  ext a
  simp [List.mem_toFinset, mem_sortedUrlList]

/-- The fixed ledger header line from `Urls.FILE_HEADER`. -/
def FILE_HEADER : String := "# sitebuilder URLs\n"

/-- `Urls` from `urls.py`: a set of `UrlPath` values. -/
structure Urls where
  urls : Finset UrlPath
deriving DecidableEq

/-- The reading loop of `Urls.read`: each remaining line is stripped of its
trailing newline, turned into a `UrlPath` (which can raise `ValueError`),
rejected with `RuntimeError` when already seen, and added to the set. -/
def Urls.readLoop : List String → Finset UrlPath → Except PyExc (Finset UrlPath)
  | [], urls => .ok urls
  | line :: rest, urls =>
    match UrlPath.make (pyRemovesuffix line "\n") with
    | .error e => .error e
    | .ok url =>
      if url ∈ urls then .error (.runtimeError ("Duplicate URL in urls file: " ++ url.path))
      else Urls.readLoop rest (insert url urls)

/-- `Urls.read`: `none` models a missing `urls.txt` (empty set); otherwise the
first line must equal the header (else `RuntimeError`), and the remaining
lines are collected by `Urls.readLoop`.  `next(f)` on an empty file raises
`StopIteration`. -/
def Urls.read (content : Option String) : Except PyExc Urls :=
  match content with
  | none => .ok ⟨∅⟩
  | some c =>
    match pyLines c with
    | [] => .error .stopIteration
    | first :: rest =>
      if first = FILE_HEADER then
        match Urls.readLoop rest ∅ with
        | .error e => .error e
        | .ok urls => .ok ⟨urls⟩
      else .error (.runtimeError "urls.txt is not in the expected format")

/-- The text produced by `Urls.write`: the header followed by the sorted
URL paths, one per line, each newline-terminated. -/
def Urls.writeContent (u : Urls) : String :=
  FILE_HEADER ++ String.join ((sortedUrlList u.urls).map (fun p => p.path ++ "\n"))

/-- `Urls.write`: refuses (raises `FileExistsError`) when the destination file
exists and its first line is not the header; otherwise produces the new file
content.  `f.readline()` on the existing file is the first element of its
line splitting, or the empty string. -/
def Urls.write (u : Urls) (existing : Option String) : Except PyExc String :=
  match existing with
  | some c =>
    if (pyLines c).headD "" = FILE_HEADER then .ok u.writeContent
    else .error (.fileExistsError "Refusing to overwrite existing file urls.txt")
  | none => .ok u.writeContent

/-- A POSIX `pathlib` path: an absolute flag plus normalized components
(`pathlib` drops empty components and `.` while parsing). -/
structure PyPath where
  absolute : Bool
  parts : List String
deriving DecidableEq, Repr

/-- Python `str.split("/")` on a character list: the (possibly empty)
chunks between slashes. -/
def splitOnSlash : List Char → List (List Char)
  | [] => [[]]
  | c :: cs =>
    if c = '/' then [] :: splitOnSlash cs
    else
      match splitOnSlash cs with
      | [] => [[c]]
      | l :: ls => (c :: l) :: ls

/-- Parse a string into a `pathlib` path. -/
def parsePyPath (s : String) : PyPath :=
  { absolute := pyStartsWith s "/",
    parts := ((splitOnSlash s.data).map String.mk).filter (fun c => !(c == "") && !(c == ".")) }

/-- `str()` of a `pathlib` path; the empty relative path prints as `.`. -/
def PyPath.str (p : PyPath) : String :=
  if p.absolute then "/" ++ String.intercalate "/" p.parts
  else if p.parts = [] then "." else String.intercalate "/" p.parts

/-- `pathlib`'s `/` operator: an absolute right operand replaces the left. -/
def PyPath.div (a b : PyPath) : PyPath :=
  if b.absolute then b else ⟨a.absolute, a.parts ++ b.parts⟩

/-- `pathlib.PurePath.name`: the final component, or the empty string. -/
def PyPath.name (p : PyPath) : String :=
  p.parts.getLastD ""

/-- `pathlib.PurePath.parent`: the path without its final component. -/
def PyPath.parent (p : PyPath) : PyPath :=
  ⟨p.absolute, p.parts.dropLast⟩

/-- The directories brought into existence by `p.mkdir(parents=True,
exist_ok=True)`: the path itself and every proper ancestor (the root is
never listed; it always exists). -/
def dirAndAncestors (p : PyPath) : List PyPath :=
  (List.range p.parts.length).map (fun i => ⟨p.absolute, p.parts.take (i + 1)⟩)

/-- `pathlib.PurePath.suffix` of a file name: text from the last dot, when
that dot is neither the first nor the last character. -/
def pyNameSuffix (name : String) : String :=
  let i := pyRfind name.data '.'
  if 0 < i ∧ i < (name.data.length : Int) - 1 then String.mk (name.data.drop i.toNat)
  else ""

/-- `pathlib.PurePath.with_suffix("")`: raises `ValueError` on a path without
a name; otherwise strips the name's suffix (when any). -/
def pyWithSuffixEmpty (p : PyPath) : Except PyExc PyPath :=
  let name := p.name
  if name = "" then .error (.valueError (p.str ++ " has an empty name"))
  else
    let old := pyNameSuffix name
    let newName :=
      if old = "" then name
      else String.mk (name.data.take (name.data.length - old.data.length))
    .ok ⟨p.absolute, p.parts.dropLast ++ [newName]⟩

/-- ANSI styling from `logging.py`. -/
def dim (s : String) : String := "\x1b[2m" ++ s ++ "\x1b[22m"

/-- ANSI styling from `logging.py`. -/
def red (s : String) : String := "\x1b[31m" ++ s ++ "\x1b[39m"

/-- ANSI styling from `logging.py`. -/
def green (s : String) : String := "\x1b[32m" ++ s ++ "\x1b[39m"

/-- ANSI styling from `logging.py`. -/
def yellow (s : String) : String := "\x1b[33m" ++ s ++ "\x1b[39m"

/-- `Result` from `actions.py`: per-action outcome. -/
structure Result where
  success : Bool
  warnings : List String
  src : String
  dest : String
deriving DecidableEq, Repr

/-- `Result.__str__`. -/
def Result.str (r : Result) : String :=
  (if r.success then "  " ++ green "OK" else red "FAIL") ++ " " ++ dim r.src ++ " -> " ++ dim r.dest

/-- `Resources` from `resources.py`: the immutable name-to-content template
mapping (its loading from disk is outside the modelled core). -/
structure Resources where
  templates : List (String × String)

/-- The metadata delimiter line from `actions.py`. -/
def META_DELIMITER : String := "---\n"

/-- The loop of `WithMeta.__post_init__` over the file's lines: lines before
the first delimiter line are the metadata block and lines after it are the
contents; when no delimiter line occurs, all lines are contents and the
metadata block is empty (the `for`/`else` branch). -/
def splitMeta (lines : List String) : List String × List String :=
  let meta_lines := lines.takeWhile (fun l => !(l == META_DELIMITER))
  match lines.dropWhile (fun l => !(l == META_DELIMITER)) with
  | [] => ([], meta_lines)
  | _ :: after => (meta_lines, after)

/-- `WithMeta.__post_init__` on a source file's text: the joined metadata
block text (fed to `tomllib.loads`) and the joined contents text. -/
def WithMeta.parse (content : String) : String × String :=
  let mc := splitMeta (pyLines content)
  (String.join mc.1, String.join mc.2)

/-- The transformation dispatched by an `index_html_processor` action:
`(filename, parsed metadata, body text, resources)` to output text, or an
exception (modelled by its rendered message). -/
def Transform : Type :=
  String → List (String × String) → String → Resources → Except String String

namespace Sitebuilder

/-- The resolved `Action` variants that a build executes: `Copy` and
`index_html_processor` actions carry their source file (path relative to
`srcdir`, plus its content; for the latter the already-parsed metadata and
contents fields of `WithMeta` and the external transformation), `Redirect`
carries the two URL strings. -/
inductive Action where
  | copy (relpath : PyPath) (content : String)
  | indexHtml (relpath : PyPath) (meta : List (String × String)) (contents : String)
      (transform : Transform)
  | redirect (old_url : String) (new_url : String)

/-- `Redirect.REDIRECT_TEMPLATE` with `{new_url}` substituted (three
occurrences). -/
def REDIRECT_TEMPLATE (new_url : String) : String :=
  "<!DOCTYPE html>\n<html lang=\"en-us\">\n<head>\n  <meta charset=\"utf-8\">\n  <meta http-equiv=\"refresh\" content=\"0; url=" ++ new_url ++ "\">\n  <title>Redirect</title>\n</head>\n<body>\n  <p>This page has moved: <a href=\"" ++ new_url ++ "\">" ++ new_url ++ "</a></p>\n</body>\n</html>\n"

/-- The destination path of `Redirect.run` relative to the destination
directory: `Path(old_url.removeprefix("/"))`, with `index.html` appended
when `old_url` ends with `/`. -/
def redirectDestRelpath (old_url : String) : PyPath :=
  let old_relative := parsePyPath (removeprefixPy old_url "/")
  if pyEndsWith old_url "/" then old_relative.div (parsePyPath "index.html")
  else old_relative

/-- The destination path of an `index_html_processor` action relative to the
destination directory: `path.with_suffix("") / "index.html"`. -/
def indexHtmlDestPath (relpath : PyPath) : Except PyExc PyPath := do
  let p ← pyWithSuffixEmpty relpath
  pure (p.div (parsePyPath "index.html"))

/-- `Action.url`: the `UrlPath` an action claims.  A `Copy` claims `/` plus
its relative path unchanged, an `index_html_processor` action claims `/` plus
its rewritten destination path, a `Redirect` claims `UrlPath(old_url)`
(which can raise `ValueError`). -/
def Action.url : Action → Except PyExc UrlPath
  | .copy relpath _ => UrlPath.make ("/" ++ relpath.str)
  | .indexHtml relpath _ _ _ => do
    let d ← indexHtmlDestPath relpath
    UrlPath.make ("/" ++ d.str)
  | .redirect old_url _ => UrlPath.make old_url

/-- The human-readable identifier of an action used in the conflict report
(`str(action)`, abbreviated to the identifying fields of the dataclass
repr). -/
def Action.str : Action → String
  | .copy relpath _ => "Copy(source=" ++ relpath.str ++ ")"
  | .indexHtml relpath _ _ _ => "IndexHtmlProcessor(source=" ++ relpath.str ++ ")"
  | .redirect old_url new_url => "Redirect(old_url=" ++ old_url ++ ", new_url=" ++ new_url ++ ")"

/-- `Action.run`, returning the `Result`, the files written under the
destination directory, and the directories the action created there.
`dirs` is the set of destination subdirectories existing when the action
runs (the destination root itself always exists after preparation;
directories outside it are not modelled).  `SourceAction.run` computes the
destination path, runs `dest.parent.mkdir(parents=True, exist_ok=True)`,
then calls `run_inner` in a `try`: an exception there is downgraded to a
failed `Result` with the rendered message appended as its only warning, and
no file written.  `Copy.run_inner` copies the source bytes;
`IndexHtmlProcessor.run_inner` writes the transformation's output.  The
`with_suffix` call sits outside the `try`, so its failure propagates.
`Redirect.run` has no `mkdir` and no `try`: `dest.write_text` raises
`FileNotFoundError` when the destination's parent directory does not exist,
and that exception propagates. -/
def Action.run (res : Resources) (dirs : List PyPath) :
    Action → Except PyExc (Result × List (PyPath × String) × List PyPath)
  | .redirect old_url new_url =>
    let dest_relpath := redirectDestRelpath old_url
    if (dest_relpath.parent.parts = [] ∧ dest_relpath.parent.absolute = false)
        ∨ dest_relpath.parent ∈ dirs then
      .ok ({ success := true, warnings := [], src := "(generated-redirect)",
             dest := "build/" ++ dest_relpath.str },
           [(dest_relpath, REDIRECT_TEMPLATE new_url)], [])
    else
      .error (.fileNotFoundError ("No such file or directory: build/" ++ dest_relpath.str))
  | .copy relpath content =>
    .ok ({ success := true, warnings := [], src := "src/" ++ relpath.str,
           dest := "build/" ++ relpath.str },
         [(relpath, content)], dirAndAncestors relpath.parent)
  | .indexHtml relpath meta contents transform =>
    match indexHtmlDestPath relpath with
    | .error e => .error e
    | .ok dest_relpath =>
      match transform relpath.name meta contents res with
      | .ok out =>
        .ok ({ success := true, warnings := [], src := "src/" ++ relpath.str,
               dest := "build/" ++ dest_relpath.str },
             [(dest_relpath, out)], dirAndAncestors dest_relpath.parent)
      | .error msg =>
        .ok ({ success := false, warnings := [msg], src := "src/" ++ relpath.str,
               dest := "build/" ++ dest_relpath.str },
             [], dirAndAncestors dest_relpath.parent)

/-- An action whose execution succeeds whatever directories already exist:
for an `index_html_processor` action, its destination path computation and
its external transformation do not raise; a `Copy` never raises once its
`mkdir` ran; a `Redirect` is safe only when its destination sits directly in
the destination root, because `Redirect.run` creates no parent
directories. -/
def Action.transformOk (res : Resources) : Action → Prop
  | .indexHtml relpath meta contents transform =>
    (∃ out, transform (PyPath.name relpath) meta contents res = .ok out) ∧
    ∃ d, indexHtmlDestPath relpath = .ok d
  | .copy _ _ => True
  | .redirect old_url _ =>
    (redirectDestRelpath old_url).parent.parts = [] ∧
    (redirectDestRelpath old_url).parent.absolute = false

/-- The marker filename `SITEBUILDER_DEST_MARKER_FILENAME`. -/
def SITEBUILDER_DEST_MARKER_FILENAME : String := ".sitebuilder-dest-dir"

/-- The marker file's path relative to the destination directory. -/
def markerRelpath : PyPath := ⟨false, [SITEBUILDER_DEST_MARKER_FILENAME]⟩

/-- The state of the destination path before or after a build: absent, an
existing directory with its files (relative path and content), or an
existing non-directory entry. -/
inductive DestState where
  | absent
  | directory (files : List (PyPath × String))
  | notADirectory
deriving DecidableEq, Repr

/-- The parts of the world a build mutates: the destination path and the
`urls.txt` ledger file (`none` when absent). -/
structure BuildState where
  dest : DestState
  urlsFile : Option String
deriving DecidableEq, Repr

/-- How a call of `build` ends: `exited` with an exit code, the log lines it
printed, the per-action results it gathered, and the final world state; or
`raised` with the propagating exception and the world state at that point. -/
inductive BuildResult where
  | exited (code : Nat) (logs : List String) (results : List Result) (st : BuildState)
  | raised (e : PyExc) (logs : List String) (st : BuildState)
deriving DecidableEq, Repr

/-- The inputs of one `build` call, starting from the resolved action list
(tree walking, `redirects.toml` parsing and resource loading produced them):
the actions in order, the prior state of the destination path, the prior
content of `urls.txt`, and the loaded resources. -/
structure BuildInput where
  actions : List Action
  dest : DestState
  urlsFileContent : Option String
  resources : Resources

/-- `dict.setdefault(key, []).append(value)` on an insertion-ordered
dictionary represented as an association list. -/
def setdefaultAppend (m : List (UrlPath × List String)) (k : UrlPath) (v : String) :
    List (UrlPath × List String) :=
  match m with
  | [] => [(k, [v])]
  | (k2, vs) :: rest =>
    if k2 = k then (k2, vs ++ [v]) :: rest else (k2, vs) :: setdefaultAppend rest k v

/-- One iteration of the `url_actions` loop of `build`: compute the action's
url (propagating its exception) and record the action's identifier under it. -/
def urlActionsStep (m : List (UrlPath × List String)) (a : Action) :
    Except PyExc (List (UrlPath × List String)) :=
  match Action.url a with
  | .error e => .error e
  | .ok u => .ok (setdefaultAppend m u a.str)

/-- The `url_actions` dictionary of `build`: for each action in order, its
claimed `UrlPath` (whose computation can raise) mapped to the identifiers of
its claimants. -/
def computeUrlActions (actions : List Action) : Except PyExc (List (UrlPath × List String)) :=
  actions.foldlM urlActionsStep []

/-- The log line `build` prints for a conflicting `UrlPath`. -/
def multipleActionsMsg (url : UrlPath) (names : List String) : String :=
  "Multiple actions produce " ++ red url.path ++ ": " ++ String.intercalate ", " names

/-- The log line `build` prints when the destination directory lacks the
marker file. -/
def markerRefusalMsg : String :=
  "dest dir doesn\x27t contain the marker file; refusing to overwrite it"

/-- The log line `build` prints for a forgotten `UrlPath`. -/
def forgottenMsg (url : UrlPath) : String :=
  "Forgotten URL: " ++ red url.path

/-- What preparing the destination directory decides. -/
inductive PrepResult where
  | fresh
  | refuse
  | raiseNotDir
deriving DecidableEq, Repr

/-- The destination-directory phase of `build`: an absent destination is
created fresh; an existing directory is wiped and re-created only when it
contains the marker file, and refused otherwise; an existing non-directory
raises `FileExistsError`. -/
def prepDest : DestState → PrepResult
  | .absent => .fresh
  | .directory files =>
    if files.any (fun f => f.1 = markerRelpath) then .fresh else .refuse
  | .notADirectory => .raiseNotDir

/-- The directory contents right after `destdir.mkdir()` and the marker
`touch()`: only the empty marker file. -/
def freshDest : List (PyPath × String) := [(markerRelpath, "")]

/-- The execution phase (`run_in_executor` over the list, gathered),
determinized to the in-order interleaving: the created destination
subdirectories are threaded from action to action, and the per-action
results are collected with the files each wrote.  An exception escaping an
action's `run` (a `with_suffix` failure, or a `Redirect` write whose parent
directory does not exist) propagates out of `gather`. -/
def runAllLoop (res : Resources) :
    List Action → List PyPath →
    Except PyExc (List (Result × List (PyPath × String)) × List PyPath)
  | [], dirs => .ok ([], dirs)
  | a :: rest, dirs =>
    match Action.run res dirs a with
    | .error e => .error e
    | .ok (r, w, newdirs) =>
      match runAllLoop res rest (dirs ++ newdirs) with
      | .error e => .error e
      | .ok (runs, dirs2) => .ok ((r, w) :: runs, dirs2)

/-- Running every action from a freshly prepared destination directory,
keeping the gathered per-action results. -/
def runAll (res : Resources) (actions : List Action) :
    Except PyExc (List (Result × List (PyPath × String))) :=
  match runAllLoop res actions [] with
  | .error e => .error e
  | .ok (runs, _) => .ok runs

/-- The log lines printed for one gathered result: the rendered result line,
then each warning under the `↪` prefix in yellow. -/
def resultLogLines (r : Result) : List String :=
  r.str :: r.warnings.map (fun w => yellow ("     ↪ " ++ w))

/-- `build` from `__init__.py`, starting after action resolution: read the
ledger, compute `url_actions`, fail on the first conflicting `UrlPath`,
prepare the destination directory, run all actions, log their results, then
either report forgotten URLs (exit 1, ledger untouched) or write the new
ledger (exit 0). -/
def build (input : BuildInput) : BuildResult :=
  match Urls.read input.urlsFileContent with
  | .error e => .raised e [] ⟨input.dest, input.urlsFileContent⟩
  | .ok old_urls =>
  match computeUrlActions input.actions with
  | .error e => .raised e [] ⟨input.dest, input.urlsFileContent⟩
  | .ok url_actions =>
  match url_actions.find? (fun e => decide (1 < e.2.length)) with
  | some (url, names) =>
    .exited 1 [multipleActionsMsg url names] [] ⟨input.dest, input.urlsFileContent⟩
  | none =>
  match prepDest input.dest with
  | .refuse => .exited 1 [markerRefusalMsg] [] ⟨input.dest, input.urlsFileContent⟩
  | .raiseNotDir =>
    .raised (.fileExistsError "dest dir exists and is not a directory: build")
      [] ⟨input.dest, input.urlsFileContent⟩
  | .fresh =>
  match runAll input.resources input.actions with
  | .error e => .raised e [] ⟨.directory freshDest, input.urlsFileContent⟩
  | .ok runs =>
    let results := runs.map Prod.fst
    let resultLogs := results.flatMap resultLogLines
    let destFinal := DestState.directory (freshDest ++ (runs.map Prod.snd).flatten)
    let new_urls : Finset UrlPath := (url_actions.map Prod.fst).toFinset
    let forgotten := old_urls.urls \ new_urls
    if forgotten.Nonempty then
      .exited 1 (resultLogs ++ (sortedUrlList forgotten).map forgottenMsg) results
        ⟨destFinal, input.urlsFileContent⟩
    else
      match Urls.write ⟨new_urls⟩ input.urlsFileContent with
      | .error e => .raised e resultLogs ⟨destFinal, input.urlsFileContent⟩
      | .ok c => .exited 0 resultLogs results ⟨destFinal, some c⟩

end Sitebuilder

theorem string_eq_of_data_eq {a b : String} (h : a.data = b.data) : a = b :=
  congrArg String.mk h

theorem pyLinesChars_cons_ne (c : Char) (cs : List Char) (hc : c ≠ '\n') :
    pyLinesChars (c :: cs) =
      match pyLinesChars cs with
      | [] => [[c]]
      | l :: ls => (c :: l) :: ls := by
  simp [pyLinesChars, if_neg hc]

theorem pyLinesChars_flatten : ∀ l : List Char, (pyLinesChars l).flatten = l := by
  intro l
  induction l with
  | nil => rfl
  | cons c cs ih =>
    by_cases hc : c = '\n'
    · subst hc
      simp [pyLinesChars, ih]
    · rw [pyLinesChars_cons_ne c cs hc]
      cases h : pyLinesChars cs with
      | nil =>
        have hcs : cs = [] := by rw [← ih, h]; rfl
        simp [hcs]
      | cons l ls =>
        rw [h] at ih
        simp only [List.flatten_cons] at ih ⊢
        rw [List.cons_append, ih]

theorem pyLinesChars_append (l rest : List Char) (h : '\n' ∉ l) :
    pyLinesChars (l ++ '\n' :: rest) = (l ++ ['\n']) :: pyLinesChars rest := by
  induction l with
  | nil => simp [pyLinesChars]
  | cons c cs ih =>
    have hc : c ≠ '\n' := fun hc => h (hc ▸ List.mem_cons_self c cs)
    have h2 : '\n' ∉ cs := fun hm => h (List.mem_cons_of_mem c hm)
    rw [List.cons_append, pyLinesChars_cons_ne c _ hc, ih h2]
    rfl

theorem pyLinesChars_flatten_map (ls : List (List Char)) (h : ∀ l ∈ ls, '\n' ∉ l) :
    pyLinesChars (ls.map (fun l => l ++ ['\n'])).flatten = ls.map (fun l => l ++ ['\n']) := by
  induction ls with
  | nil => rfl
  | cons a as ih =>
    simp only [List.map_cons, List.flatten_cons]
    rw [List.append_assoc, List.singleton_append,
      pyLinesChars_append a _ (h a (List.mem_cons_self a as)),
      ih (fun l hl => h l (List.mem_cons_of_mem a hl))]

theorem data_foldl_append (L : List String) (acc : String) :
    (L.foldl (fun r s => r ++ s) acc).data = acc.data ++ (L.map String.data).flatten := by
  induction L generalizing acc with
  | nil => simp
  | cons a as ih =>
    simp only [List.foldl_cons, List.map_cons, List.flatten_cons, ih, String.data_append,
      List.append_assoc]

theorem data_join (L : List String) : (String.join L).data = (L.map String.data).flatten := by
  show (L.foldl (fun r s => r ++ s) "").data = _
  rw [data_foldl_append]
  simp

theorem data_append_newline (p : String) : (p ++ "\n").data = p.data ++ ['\n'] := by
  rw [String.data_append]

theorem mk_data_newline (p : String) : String.mk (p.data ++ ['\n']) = p ++ "\n" :=
  string_eq_of_data_eq (by rw [data_append_newline])

theorem join_pyLines (s : String) : String.join (pyLines s) = s := by
  apply string_eq_of_data_eq
  rw [pyLines, data_join, List.map_map]
  have h : (String.data ∘ String.mk) = id := rfl
  rw [h, List.map_id, pyLinesChars_flatten]

theorem pyLines_join_newline_terminated (ls : List String) (h : ∀ x ∈ ls, '\n' ∉ x.data) :
    pyLines (String.join (ls.map (fun p => p ++ "\n"))) = ls.map (fun p => p ++ "\n") := by
  have hcomp1 : (String.data ∘ fun p : String => p ++ "\n")
      = ((fun l => l ++ ['\n']) ∘ String.data) :=
    funext fun p => data_append_newline p
  have hdata : ∀ l ∈ ls.map String.data, '\n' ∉ l := by
    intro l hl
    rw [List.mem_map] at hl
    obtain ⟨x, hx, rfl⟩ := hl
    exact h x hx
  have hd : (String.join (ls.map (fun p => p ++ "\n"))).data
      = ((ls.map String.data).map (fun l => l ++ ['\n'])).flatten := by
    rw [data_join, List.map_map, hcomp1, ← List.map_map]
  rw [pyLines, hd, pyLinesChars_flatten_map (ls.map String.data) hdata]
  rw [List.map_map, List.map_map]
  have hcomp2 : ((String.mk ∘ fun l : List Char => l ++ ['\n']) ∘ String.data)
      = fun p : String => p ++ "\n" :=
    funext fun p => mk_data_newline p
  rw [hcomp2]

theorem takeWhile_append_delim (l1 l2 : List String) (h : META_DELIMITER ∉ l1) :
    (l1 ++ META_DELIMITER :: l2).takeWhile (fun l => !(l == META_DELIMITER)) = l1 := by
  induction l1 with
  | nil => simp [List.takeWhile]
  | cons a as ih =>
    have ha : a ≠ META_DELIMITER := fun hc => h (hc ▸ List.mem_cons_self a as)
    have ih2 := ih (fun hm => h (List.mem_cons_of_mem a hm))
    simp [List.takeWhile_cons, ha, ih2]

theorem dropWhile_append_delim (l1 l2 : List String) (h : META_DELIMITER ∉ l1) :
    (l1 ++ META_DELIMITER :: l2).dropWhile (fun l => !(l == META_DELIMITER))
      = META_DELIMITER :: l2 := by
  induction l1 with
  | nil => simp [List.dropWhile]
  | cons a as ih =>
    have ha : a ≠ META_DELIMITER := fun hc => h (hc ▸ List.mem_cons_self a as)
    have ih2 := ih (fun hm => h (List.mem_cons_of_mem a hm))
    simp [List.dropWhile_cons, ha, ih2]

theorem splitMeta_delim (l1 l2 : List String) (h : META_DELIMITER ∉ l1) :
    splitMeta (l1 ++ META_DELIMITER :: l2) = (l1, l2) := by
  unfold splitMeta
  rw [takeWhile_append_delim l1 l2 h, dropWhile_append_delim l1 l2 h]

theorem splitMeta_no_delim (lines : List String) (h : META_DELIMITER ∉ lines) :
    splitMeta lines = ([], lines) := by
  unfold splitMeta
  have hd : lines.dropWhile (fun l => !(l == META_DELIMITER)) = [] := by
    rw [List.dropWhile_eq_nil_iff]
    intro x hx
    have hne : x ≠ META_DELIMITER := fun heq => h (heq ▸ hx)
    simp [hne]
  have ht : lines.takeWhile (fun l => !(l == META_DELIMITER)) = lines := by
    have := List.takeWhile_append_dropWhile (l := lines) (p := fun l => !(l == META_DELIMITER))
    rw [hd, List.append_nil] at this
    exact this
  rw [hd, ht]

/-- C8: for every source file parsed by a metadata-bearing action, the lines
before the first occurrence of the literal delimiter line form the metadata
block and the lines after it form the body; when the delimiter line never
occurs, the entire file is body content and the metadata block is empty. -/
theorem c8_meta_split (content : String) :
    (∀ l1 l2, pyLines content = l1 ++ META_DELIMITER :: l2 → META_DELIMITER ∉ l1 →
      WithMeta.parse content = (String.join l1, String.join l2)) ∧
    (META_DELIMITER ∉ pyLines content → WithMeta.parse content = ("", content)) := by
  constructor
  · intro l1 l2 hsplit hnot
    unfold WithMeta.parse
    rw [hsplit, splitMeta_delim l1 l2 hnot]
  · intro hnot
    unfold WithMeta.parse
    rw [splitMeta_no_delim _ hnot]
    show (String.join [], String.join (pyLines content)) = ("", content)
    rw [join_pyLines]
    rfl

/-- Witness for C8: a file with a metadata block and one without. -/
theorem c8_meta_split_witness :
    WithMeta.parse "x = 1\n---\nbody\nmore\n" = ("x = 1\n", "body\nmore\n") ∧
    WithMeta.parse "just body\n" = ("", "just body\n") := by
  constructor
  · have h := (c8_meta_split "x = 1\n---\nbody\nmore\n").1 ["x = 1\n"] ["body\n", "more\n"]
      (by decide) (by decide)
    rw [h]
    decide
  · exact (c8_meta_split "just body\n").2 (by decide)

/-- C10: the metadata delimiter must match the four characters of the line
exactly; a final line consisting of three dashes without a trailing newline
does not terminate a metadata block, so the whole file (dashes included) is
body content with empty metadata. -/
theorem c10_trailing_dashes (content : String) (l : List String)
    (h1 : pyLines content = l ++ ["---"])
    (h2 : META_DELIMITER ∉ l) :
    WithMeta.parse content = ("", content) := by
  have hnot : META_DELIMITER ∉ pyLines content := by
    rw [h1]
    intro hm
    rcases List.mem_append.mp hm with hl | hr
    · exact h2 hl
    · have heq : META_DELIMITER = "---" := List.mem_singleton.mp hr
      exact absurd heq (by decide)
  unfold WithMeta.parse
  rw [splitMeta_no_delim _ hnot]
  show (String.join [], String.join (pyLines content)) = ("", content)
  rw [join_pyLines]
  rfl

/-- Witness for C10: a file whose last line is three dashes with no newline. -/
theorem c10_trailing_dashes_witness :
    WithMeta.parse "title = 1\n---" = ("", "title = 1\n---") :=
  c10_trailing_dashes "title = 1\n---" ["title = 1\n"] (by decide) (by decide)

theorem make_ok_eq {s : String} {u : UrlPath} (h : UrlPath.make s = .ok u) : u = ⟨s⟩ := by
  unfold UrlPath.make at h
  by_cases hs : pyStartsWith s "/" = true
  · rw [if_pos hs] at h
    exact (Except.ok.inj h).symm
  · rw [if_neg hs] at h
    exact absurd h (by simp)

theorem readLoop_ok_nodup :
    ∀ (lines : List String) (s t : Finset UrlPath), Urls.readLoop lines s = .ok t →
      (lines.map (fun l => pyRemovesuffix l "\n")).Nodup ∧
      ∀ l ∈ lines, (UrlPath.mk (pyRemovesuffix l "\n")) ∉ s := by
  intro lines
  induction lines with
  | nil =>
    intro s t _
    exact ⟨List.nodup_nil, by simp⟩
  | cons line rest ih =>
    intro s t h
    rw [Urls.readLoop] at h
    cases hm : UrlPath.make (pyRemovesuffix line "\n") with
    | error e =>
      simp only [hm] at h
      exact absurd h (by simp)
    | ok url =>
      simp only [hm] at h
      have hurl := make_ok_eq hm
      subst hurl
      by_cases hin : (UrlPath.mk (pyRemovesuffix line "\n")) ∈ s
      · rw [if_pos hin] at h
        exact absurd h (by simp)
      · rw [if_neg hin] at h
        obtain ⟨hnd, hnotin⟩ := ih _ t h
        refine ⟨List.nodup_cons.mpr ⟨?_, hnd⟩, ?_⟩
        · intro hmem
          rw [List.mem_map] at hmem
          obtain ⟨l2, hl2, heq⟩ := hmem
          have hni := hnotin l2 hl2
          rw [show (UrlPath.mk (pyRemovesuffix l2 "\n")) = UrlPath.mk (pyRemovesuffix line "\n")
            from congrArg UrlPath.mk heq] at hni
          exact hni (Finset.mem_insert_self _ _)
        · intro l2 hl2
          rcases List.mem_cons.mp hl2 with hl2 | hl2
          · rw [hl2]
            exact hin
          · intro hmem
            exact hnotin l2 hl2 (Finset.mem_insert_of_mem hmem)

/-- C9: reading a ledger file in which the same UrlPath occurs on more than
one body line fails with an exception even though the header is correct; a
duplicate line is never silently collapsed into the returned set. -/
theorem c9_duplicate_url (content : String) (rest : List String)
    (hl : pyLines content = FILE_HEADER :: rest)
    (hdup : ¬ (rest.map (fun l => pyRemovesuffix l "\n")).Nodup) :
    ∃ e, Urls.read (some content) = .error e := by
  simp only [Urls.read, hl]
  rw [if_pos trivial]
  cases hrl : Urls.readLoop rest ∅ with
  | error e =>
    exact ⟨e, by simp only [hrl]⟩
  | ok t =>
    exact absurd (readLoop_ok_nodup rest ∅ t hrl).1 hdup

/-- Witness for C9: a ledger file repeating the line for path /a. -/
theorem c9_duplicate_url_witness :
    pyLines "# sitebuilder URLs\n/a\n/a\n" = [FILE_HEADER, "/a\n", "/a\n"] ∧
    ∃ e, Urls.read (some "# sitebuilder URLs\n/a\n/a\n") = .error e :=
  ⟨by decide, c9_duplicate_url "# sitebuilder URLs\n/a\n/a\n" ["/a\n", "/a\n"]
    (by decide) (by decide)⟩

/-- C7 counterexample: a Redirect whose old_url does not start with a slash
has no published UrlPath at all: url() raises ValueError instead of
returning old_url. -/
theorem c7_counterexample :
    Sitebuilder.Action.url (.redirect "foo" "/bar")
      = .error (.valueError "path must be absolute: foo") := by decide

set_option maxRecDepth 4000 in
/-- C7 (amended): for every Redirect action whose old_url starts with a
slash, url() returns old_url verbatim and the destination path is derived
from old_url (append index.html when old_url ends with a slash, else treat
old_url literally as a file path); execution writes the meta-refresh page at
that path only when the path's parent directory already exists —
Redirect.run never creates parent directories, so when the parent is
missing, dest.write_text raises FileNotFoundError, which propagates and
crashes the build; in particular old_url /foo/ maps to foo/index.html, the
page generated for new_url /bar contains a meta refresh to /bar, and
running the /foo/ redirect in a freshly wiped destination raises
FileNotFoundError instead of writing foo/index.html. -/
theorem c7_redirect (old_url new_url : String) (res : Resources) (dirs : List PyPath)
    (h : pyStartsWith old_url "/" = true) :
    Sitebuilder.Action.url (.redirect old_url new_url) = .ok ⟨old_url⟩ ∧
    (pyEndsWith old_url "/" = true →
      Sitebuilder.redirectDestRelpath old_url
        = (parsePyPath (removeprefixPy old_url "/")).div (parsePyPath "index.html")) ∧
    (pyEndsWith old_url "/" = false →
      Sitebuilder.redirectDestRelpath old_url = parsePyPath (removeprefixPy old_url "/")) ∧
    (((Sitebuilder.redirectDestRelpath old_url).parent.parts = [] ∧
        (Sitebuilder.redirectDestRelpath old_url).parent.absolute = false) ∨
      (Sitebuilder.redirectDestRelpath old_url).parent ∈ dirs →
      Sitebuilder.Action.run res dirs (.redirect old_url new_url) =
        .ok ({ success := true, warnings := [], src := "(generated-redirect)",
               dest := "build/" ++ (Sitebuilder.redirectDestRelpath old_url).str },
             [(Sitebuilder.redirectDestRelpath old_url,
               Sitebuilder.REDIRECT_TEMPLATE new_url)], [])) ∧
    (¬ (((Sitebuilder.redirectDestRelpath old_url).parent.parts = [] ∧
          (Sitebuilder.redirectDestRelpath old_url).parent.absolute = false) ∨
        (Sitebuilder.redirectDestRelpath old_url).parent ∈ dirs) →
      Sitebuilder.Action.run res dirs (.redirect old_url new_url) =
        .error (.fileNotFoundError
          ("No such file or directory: build/"
            ++ (Sitebuilder.redirectDestRelpath old_url).str))) ∧
    (Sitebuilder.redirectDestRelpath "/foo/").str = "foo/index.html" ∧
    strContains (Sitebuilder.REDIRECT_TEMPLATE "/bar")
      "<meta http-equiv=\"refresh\" content=\"0; url=/bar\">" = true ∧
    Sitebuilder.Action.run res [] (.redirect "/foo/" "/bar")
      = .error (.fileNotFoundError "No such file or directory: build/foo/index.html") ∧
    Sitebuilder.build
        { actions := [.redirect "/foo/" "/bar"], dest := .absent,
          urlsFileContent := none, resources := ⟨[]⟩ }
      = .raised (.fileNotFoundError "No such file or directory: build/foo/index.html") []
          ⟨.directory Sitebuilder.freshDest, none⟩ := by
  refine ⟨?_, ?_, ?_, ?_, ?_, by decide, by decide, ?_, by decide⟩
  · show UrlPath.make old_url = .ok ⟨old_url⟩
    unfold UrlPath.make
    rw [if_pos h]
  · intro he
    unfold Sitebuilder.redirectDestRelpath
    rw [if_pos he]
  · intro he
    unfold Sitebuilder.redirectDestRelpath
    rw [if_neg (by simp [he])]
  · intro hpar
    simp only [Sitebuilder.Action.run]
    rw [if_pos hpar]
  · intro hpar
    simp only [Sitebuilder.Action.run]
    rw [if_neg hpar]
  · simp only [Sitebuilder.Action.run]
    rw [if_neg (by decide)]
    rfl

/-- Witness for C7 at old_url /foo/ and new_url /bar. -/
theorem c7_redirect_witness :
    pyStartsWith "/foo/" "/" = true ∧
    Sitebuilder.Action.url (.redirect "/foo/" "/bar") = .ok ⟨"/foo/"⟩ ∧
    Sitebuilder.Action.run ⟨[]⟩ [(⟨false, ["foo"]⟩ : PyPath)] (.redirect "/foo/" "/bar")
      = .ok ({ success := true, warnings := [], src := "(generated-redirect)",
               dest := "build/" ++ (Sitebuilder.redirectDestRelpath "/foo/").str },
             [(Sitebuilder.redirectDestRelpath "/foo/",
               Sitebuilder.REDIRECT_TEMPLATE "/bar")], []) :=
  ⟨by decide, (c7_redirect "/foo/" "/bar" ⟨[]⟩ [⟨false, ["foo"]⟩] (by decide)).1,
   (c7_redirect "/foo/" "/bar" ⟨[]⟩ [⟨false, ["foo"]⟩] (by decide)).2.2.2.1 (by decide)⟩

theorem isSuffixOf_iff_suffix {l1 l2 : List Char} : l1.isSuffixOf l2 = true ↔ l1 <:+ l2 := by
  rw [List.isSuffixOf, List.isPrefixOf_iff_prefix, List.reverse_prefix]

theorem pyRemovesuffix_append_newline (p : String) : pyRemovesuffix (p ++ "\n") "\n" = p := by
  unfold pyRemovesuffix removesuffixChars
  rw [data_append_newline]
  rw [if_pos (isSuffixOf_iff_suffix.mpr (List.suffix_append p.data ['\n']))]
  have hlen : (p.data ++ ['\n']).length - ("\n".data).length = p.data.length := by simp
  rw [hlen, List.take_left]

theorem join_cons (a : String) (L : List String) : String.join (a :: L) = a ++ String.join L :=
  string_eq_of_data_eq
    (by rw [data_join, List.map_cons, List.flatten_cons, String.data_append, data_join])

theorem readLoop_ok_of_valid :
    ∀ (ps : List UrlPath) (s : Finset UrlPath),
      (∀ p ∈ ps, pyStartsWith p.path "/" = true) →
      ps.Nodup → (∀ p ∈ ps, p ∉ s) →
      Urls.readLoop (ps.map (fun p => p.path ++ "\n")) s = .ok (s ∪ ps.toFinset) := by
  intro ps
  induction ps with
  | nil =>
    intro s _ _ _
    simp [Urls.readLoop]
  | cons p rest ih =>
    intro s habs hnd hdisj
    rw [List.map_cons, Urls.readLoop, pyRemovesuffix_append_newline]
    have hmk : UrlPath.make p.path = .ok p := by
      unfold UrlPath.make
      rw [if_pos (habs p (List.mem_cons_self p rest))]
    simp only [hmk]
    rw [if_neg (hdisj p (List.mem_cons_self p rest))]
    rw [ih (insert p s)
      (fun q hq => habs q (List.mem_cons_of_mem p hq))
      (List.nodup_cons.mp hnd).2
      (fun q hq => by
        intro hmem
        rcases Finset.mem_insert.mp hmem with heq | hmem2
        · exact (List.nodup_cons.mp hnd).1 (heq ▸ hq)
        · exact hdisj q (List.mem_cons_of_mem p hq) hmem2)]
    rw [List.toFinset_cons, Finset.insert_union, Finset.union_insert]

/-- C5 counterexample: a UrlPath is any string starting with a slash, so it
may contain a newline; writing the ledger for the singleton set holding the
path /a-newline-b and reading it back fails instead of returning the set. -/
theorem c5_counterexample :
    Urls.read (some (Urls.writeContent ⟨{⟨"/a\nb"⟩}⟩))
      = .error (.valueError "path must be absolute: b") := by decide

theorem writeContent_lines (u : Urls) (hnl : ∀ p ∈ u.urls, '\n' ∉ p.path.data) :
    pyLines u.writeContent
      = FILE_HEADER :: (sortedUrlList u.urls).map (fun p => p.path ++ "\n") := by
  have hhead : FILE_HEADER = "# sitebuilder URLs" ++ "\n" := by decide
  have hjoin : u.writeContent
      = String.join (("# sitebuilder URLs" :: (sortedUrlList u.urls).map UrlPath.path).map
          (fun p => p ++ "\n")) := by
    rw [List.map_cons, join_cons, Urls.writeContent, hhead, List.map_map]
    rfl
  have hside : ∀ x ∈ ("# sitebuilder URLs" :: (sortedUrlList u.urls).map UrlPath.path),
      '\n' ∉ x.data := by
    intro x hx
    rcases List.mem_cons.mp hx with hx | hx
    · subst hx
      decide
    · rw [List.mem_map] at hx
      obtain ⟨p, hp, rfl⟩ := hx
      exact hnl p ((mem_sortedUrlList u.urls p).mp hp)
  rw [hjoin, pyLines_join_newline_terminated _ hside, List.map_cons, ← hhead, List.map_map]
  rfl

/-- C5 (amended): for every set of UrlPath values none of which contains a
newline character (in particular the set of /a and /b/c), writing a
UrlLedger containing that set and reading it back yields exactly that set;
the written file is the header followed by the paths as sorted,
newline-terminated lines; and the written bytes do not depend on the
insertion order of the set's elements. -/
theorem c5_ledger_roundtrip (l : List String)
    (habs : ∀ s ∈ l, pyStartsWith s "/" = true)
    (hnl : ∀ s ∈ l, '\n' ∉ s.data) :
    Urls.read (some (Urls.writeContent ⟨(l.map UrlPath.mk).toFinset⟩))
        = .ok ⟨(l.map UrlPath.mk).toFinset⟩ ∧
    pyLines (Urls.writeContent ⟨(l.map UrlPath.mk).toFinset⟩)
        = FILE_HEADER
            :: (sortedUrlList (l.map UrlPath.mk).toFinset).map (fun p => p.path ++ "\n") ∧
    List.Sorted (fun a b => a ≤ b) (sortedUrlList (l.map UrlPath.mk).toFinset) ∧
    (∀ l2 : List String, l2.Perm l →
      Urls.writeContent ⟨(l2.map UrlPath.mk).toFinset⟩
        = Urls.writeContent ⟨(l.map UrlPath.mk).toFinset⟩) := by
  have hmemF : ∀ p ∈ (l.map UrlPath.mk).toFinset,
      pyStartsWith p.path "/" = true ∧ '\n' ∉ p.path.data := by
    intro p hp
    rw [List.mem_toFinset, List.mem_map] at hp
    obtain ⟨s, hs, rfl⟩ := hp
    exact ⟨habs s hs, hnl s hs⟩
  have hlines := writeContent_lines ⟨(l.map UrlPath.mk).toFinset⟩
    (fun p hp => (hmemF p hp).2)
  refine ⟨?_, hlines, sortedUrlList_sorted _, ?_⟩
  · simp only [Urls.read, hlines]
    rw [if_pos trivial]
    rw [readLoop_ok_of_valid (sortedUrlList (l.map UrlPath.mk).toFinset) ∅
      (fun p hp => (hmemF p ((mem_sortedUrlList _ p).mp hp)).1)
      (sortedUrlList_nodup _)
      (fun p _ => Finset.not_mem_empty p)]
    rw [Finset.empty_union, sortedUrlList_toFinset]
  · intro l2 hperm
    have : (l2.map UrlPath.mk).toFinset = (l.map UrlPath.mk).toFinset :=
      List.toFinset_eq_of_perm _ _ (hperm.map UrlPath.mk)
    rw [this]

/-- Witness for C5 at the set holding /a and /b/c. -/
theorem c5_ledger_roundtrip_witness :
    (∀ s ∈ ["/a", "/b/c"], pyStartsWith s "/" = true) ∧
    Urls.read (some (Urls.writeContent ⟨(["/a", "/b/c"].map UrlPath.mk).toFinset⟩))
      = .ok ⟨(["/a", "/b/c"].map UrlPath.mk).toFinset⟩ ∧
    Urls.writeContent ⟨(["/a", "/b/c"].map UrlPath.mk).toFinset⟩
      = "# sitebuilder URLs\n/a\n/b/c\n" :=
  ⟨by decide,
   (c5_ledger_roundtrip ["/a", "/b/c"] (by decide) (by decide)).1,
   by decide⟩

theorem setdefaultAppend_keys (m : List (UrlPath × List String)) (k : UrlPath) (v : String)
    (u : UrlPath) :
    u ∈ (Sitebuilder.setdefaultAppend m k v).map Prod.fst ↔ u ∈ m.map Prod.fst ∨ u = k := by
  induction m with
  | nil => simp [Sitebuilder.setdefaultAppend]
  | cons e rest ih =>
    obtain ⟨k2, vs⟩ := e
    by_cases hk : k2 = k
    · subst hk
      simp [Sitebuilder.setdefaultAppend]
      tauto
    · simp [Sitebuilder.setdefaultAppend, hk, ih]
      tauto

theorem foldlM_urlActions_keys :
    ∀ (actions : List Sitebuilder.Action) (m ua : List (UrlPath × List String)),
      List.foldlM Sitebuilder.urlActionsStep m actions = .ok ua →
      (∀ u ∈ m.map Prod.fst, u ∈ ua.map Prod.fst) ∧
      (∀ a ∈ actions, ∀ u, Sitebuilder.Action.url a = .ok u → u ∈ ua.map Prod.fst) := by
  intro actions
  induction actions with
  | nil =>
    intro m ua h
    replace h : (Except.ok m : Except PyExc _) = .ok ua := h
    have hm := Except.ok.inj h
    subst hm
    exact ⟨fun u hu => hu, fun a ha => absurd ha (List.not_mem_nil a)⟩
  | cons a rest ih =>
    intro m ua h
    rw [List.foldlM_cons] at h
    cases hu : Sitebuilder.Action.url a with
    | error e =>
      have hstep : Sitebuilder.urlActionsStep m a = .error e := by
        unfold Sitebuilder.urlActionsStep
        rw [hu]
      rw [hstep] at h
      replace h : (Except.error e : Except PyExc _) = .ok ua := h
      exact absurd h (by simp)
    | ok u =>
      have hstep : Sitebuilder.urlActionsStep m a
          = .ok (Sitebuilder.setdefaultAppend m u a.str) := by
        unfold Sitebuilder.urlActionsStep
        rw [hu]
      rw [hstep] at h
      replace h : List.foldlM Sitebuilder.urlActionsStep
          (Sitebuilder.setdefaultAppend m u a.str) rest = .ok ua := h
      obtain ⟨hmono, hall⟩ := ih _ ua h
      constructor
      · intro v hv
        exact hmono v ((setdefaultAppend_keys m u a.str v).mpr (Or.inl hv))
      · intro b hb v hvurl
        rcases List.mem_cons.mp hb with hb | hb
        · subst hb
          rw [hu] at hvurl
          have hv : u = v := Except.ok.inj hvurl
          subst hv
          exact hmono u ((setdefaultAppend_keys m u b.str u).mpr (Or.inr rfl))
        · exact hall b hb v hvurl

theorem computeUrlActions_mem (actions : List Sitebuilder.Action)
    (ua : List (UrlPath × List String))
    (h : Sitebuilder.computeUrlActions actions = .ok ua) :
    ∀ a ∈ actions, ∀ u, Sitebuilder.Action.url a = .ok u → u ∈ ua.map Prod.fst :=
  (foldlM_urlActions_keys actions [] ua h).2

/-- C1 (amended): for every build input whose ledger read and per-action URL
computations succeed and in which some UrlPath is claimed by more than one
action, the build returns exit code 1 reporting the first conflicting
UrlPath (in action order) together with the identifiers of all of its
claimants, and performs no mutation of the destination directory or the
ledger before returning.  (The original claim said every conflicting UrlPath
is reported; the loop returns at the first one.) -/
theorem c1_conflict (input : Sitebuilder.BuildInput) (old : Urls)
    (ua : List (UrlPath × List String))
    (hread : Urls.read input.urlsFileContent = .ok old)
    (hua : Sitebuilder.computeUrlActions input.actions = .ok ua)
    (hconf : ∃ e ∈ ua, 1 < e.2.length) :
    ∃ url names,
      ua.find? (fun e => decide (1 < e.2.length)) = some (url, names) ∧ 1 < names.length ∧
      Sitebuilder.build input
        = .exited 1 [Sitebuilder.multipleActionsMsg url names] []
            ⟨input.dest, input.urlsFileContent⟩ := by
  have hsome : (ua.find? (fun e => decide (1 < e.2.length))).isSome := by
    rw [List.find?_isSome]
    obtain ⟨e, he, hlen⟩ := hconf
    exact ⟨e, he, by simpa using hlen⟩
  obtain ⟨⟨url, names⟩, hfind⟩ := Option.isSome_iff_exists.mp hsome
  refine ⟨url, names, hfind, ?_, ?_⟩
  · have hp := List.find?_some hfind
    simpa using hp
  · simp only [Sitebuilder.build, hread, hua, hfind]

set_option maxRecDepth 10000 in
/-- C1 counterexample: with two distinct UrlPaths each claimed by two Copy
actions, the build returns after logging only the first conflicting UrlPath;
no log line mentions the second conflicting UrlPath /b.txt. -/
theorem c1_counterexample :
    Sitebuilder.computeUrlActions
        [.copy (parsePyPath "a.txt") "x1", .copy (parsePyPath "a.txt") "x2",
         .copy (parsePyPath "b.txt") "y1", .copy (parsePyPath "b.txt") "y2"]
      = .ok [(⟨"/a.txt"⟩, ["Copy(source=a.txt)", "Copy(source=a.txt)"]),
             (⟨"/b.txt"⟩, ["Copy(source=b.txt)", "Copy(source=b.txt)"])] ∧
    Sitebuilder.build
        { actions := [.copy (parsePyPath "a.txt") "x1", .copy (parsePyPath "a.txt") "x2",
                      .copy (parsePyPath "b.txt") "y1", .copy (parsePyPath "b.txt") "y2"],
          dest := .absent, urlsFileContent := none, resources := ⟨[]⟩ }
      = .exited 1
          [Sitebuilder.multipleActionsMsg ⟨"/a.txt"⟩
            ["Copy(source=a.txt)", "Copy(source=a.txt)"]]
          [] ⟨.absent, none⟩ ∧
    (∀ m ∈ [Sitebuilder.multipleActionsMsg ⟨"/a.txt"⟩
        ["Copy(source=a.txt)", "Copy(source=a.txt)"]],
      strContains m "/b.txt" = false) := by decide

set_option maxRecDepth 10000 in
/-- Witness for C1 at a two-action conflict on /a.txt. -/
theorem c1_conflict_witness :
    Urls.read (none : Option String) = .ok ⟨∅⟩ ∧
    (∃ url names,
      ([((⟨"/a.txt"⟩ : UrlPath), ["Copy(source=a.txt)", "Copy(source=a.txt)"])].find?
          (fun e => decide (1 < e.2.length)) = some (url, names)) ∧ 1 < names.length ∧
      Sitebuilder.build
          { actions := [.copy (parsePyPath "a.txt") "x1", .copy (parsePyPath "a.txt") "x2"],
            dest := .absent, urlsFileContent := none, resources := ⟨[]⟩ }
        = .exited 1 [Sitebuilder.multipleActionsMsg url names] [] ⟨.absent, none⟩) :=
  ⟨rfl,
   c1_conflict
     { actions := [.copy (parsePyPath "a.txt") "x1", .copy (parsePyPath "a.txt") "x2"],
       dest := .absent, urlsFileContent := none, resources := ⟨[]⟩ }
     ⟨∅⟩ [((⟨"/a.txt"⟩ : UrlPath), ["Copy(source=a.txt)", "Copy(source=a.txt)"])]
     rfl (by decide) (by decide)⟩

theorem write_ok_of_read_ok (c : Option String) (old u : Urls)
    (h : Urls.read c = .ok old) : Urls.write u c = .ok u.writeContent := by
  cases c with
  | none => rfl
  | some s =>
    cases hl : pyLines s with
    | nil =>
      simp only [Urls.read, hl] at h
      exact absurd h (by simp)
    | cons first rest =>
      by_cases hf : first = FILE_HEADER
      · simp only [Urls.write, hl, List.headD_cons]
        rw [if_pos hf]
      · simp only [Urls.read, hl] at h
        rw [if_neg hf] at h
        exact absurd h (by simp)

/-- Exhaustive trace analysis of `build`: one disjunct per way a build call
can end, each recording the phase outcomes that led there. -/
theorem build_cases (input : Sitebuilder.BuildInput) :
    (∃ e, Urls.read input.urlsFileContent = .error e ∧
      Sitebuilder.build input = .raised e [] ⟨input.dest, input.urlsFileContent⟩) ∨
    (∃ old e, Urls.read input.urlsFileContent = .ok old ∧
      Sitebuilder.computeUrlActions input.actions = .error e ∧
      Sitebuilder.build input = .raised e [] ⟨input.dest, input.urlsFileContent⟩) ∨
    (∃ old ua url names, Urls.read input.urlsFileContent = .ok old ∧
      Sitebuilder.computeUrlActions input.actions = .ok ua ∧
      ua.find? (fun e => decide (1 < e.2.length)) = some (url, names) ∧
      Sitebuilder.build input = .exited 1 [Sitebuilder.multipleActionsMsg url names] []
        ⟨input.dest, input.urlsFileContent⟩) ∨
    (∃ old ua, Urls.read input.urlsFileContent = .ok old ∧
      Sitebuilder.computeUrlActions input.actions = .ok ua ∧
      ua.find? (fun e => decide (1 < e.2.length)) = none ∧
      Sitebuilder.prepDest input.dest = .refuse ∧
      Sitebuilder.build input = .exited 1 [Sitebuilder.markerRefusalMsg] []
        ⟨input.dest, input.urlsFileContent⟩) ∨
    (∃ old ua, Urls.read input.urlsFileContent = .ok old ∧
      Sitebuilder.computeUrlActions input.actions = .ok ua ∧
      ua.find? (fun e => decide (1 < e.2.length)) = none ∧
      Sitebuilder.prepDest input.dest = .raiseNotDir ∧
      Sitebuilder.build input
        = .raised (.fileExistsError "dest dir exists and is not a directory: build") []
            ⟨input.dest, input.urlsFileContent⟩) ∨
    (∃ old ua e, Urls.read input.urlsFileContent = .ok old ∧
      Sitebuilder.computeUrlActions input.actions = .ok ua ∧
      ua.find? (fun e => decide (1 < e.2.length)) = none ∧
      Sitebuilder.prepDest input.dest = .fresh ∧
      Sitebuilder.runAll input.resources input.actions = .error e ∧
      Sitebuilder.build input
        = .raised e [] ⟨.directory Sitebuilder.freshDest, input.urlsFileContent⟩) ∨
    (∃ old ua runs, Urls.read input.urlsFileContent = .ok old ∧
      Sitebuilder.computeUrlActions input.actions = .ok ua ∧
      ua.find? (fun e => decide (1 < e.2.length)) = none ∧
      Sitebuilder.prepDest input.dest = .fresh ∧
      Sitebuilder.runAll input.resources input.actions = .ok runs ∧
      (old.urls \ (ua.map Prod.fst).toFinset).Nonempty ∧
      Sitebuilder.build input
        = .exited 1
            ((runs.map Prod.fst).flatMap Sitebuilder.resultLogLines
              ++ (sortedUrlList (old.urls \ (ua.map Prod.fst).toFinset)).map
                   Sitebuilder.forgottenMsg)
            (runs.map Prod.fst)
            ⟨.directory (Sitebuilder.freshDest ++ (runs.map Prod.snd).flatten),
             input.urlsFileContent⟩) ∨
    (∃ old ua runs, Urls.read input.urlsFileContent = .ok old ∧
      Sitebuilder.computeUrlActions input.actions = .ok ua ∧
      ua.find? (fun e => decide (1 < e.2.length)) = none ∧
      Sitebuilder.prepDest input.dest = .fresh ∧
      Sitebuilder.runAll input.resources input.actions = .ok runs ∧
      old.urls \ (ua.map Prod.fst).toFinset = ∅ ∧
      Sitebuilder.build input
        = .exited 0 ((runs.map Prod.fst).flatMap Sitebuilder.resultLogLines)
            (runs.map Prod.fst)
            ⟨.directory (Sitebuilder.freshDest ++ (runs.map Prod.snd).flatten),
             some (Urls.writeContent ⟨(ua.map Prod.fst).toFinset⟩)⟩) := by
  cases hread : Urls.read input.urlsFileContent with
  | error e =>
    exact Or.inl ⟨e, rfl, by simp only [Sitebuilder.build, hread]⟩
  | ok old =>
  cases hua : Sitebuilder.computeUrlActions input.actions with
  | error e =>
    exact Or.inr (Or.inl ⟨old, e, rfl, rfl, by simp only [Sitebuilder.build, hread, hua]⟩)
  | ok ua =>
  cases hfind : ua.find? (fun e => decide (1 < e.2.length)) with
  | some p =>
    obtain ⟨url, names⟩ := p
    exact Or.inr (Or.inr (Or.inl ⟨old, ua, url, names, rfl, rfl, hfind,
      by simp only [Sitebuilder.build, hread, hua, hfind]⟩))
  | none =>
  cases hprep : Sitebuilder.prepDest input.dest with
  | refuse =>
    exact Or.inr (Or.inr (Or.inr (Or.inl ⟨old, ua, rfl, rfl, hfind, rfl,
      by simp only [Sitebuilder.build, hread, hua, hfind, hprep]⟩)))
  | raiseNotDir =>
    exact Or.inr (Or.inr (Or.inr (Or.inr (Or.inl ⟨old, ua, rfl, rfl, hfind, rfl,
      by simp only [Sitebuilder.build, hread, hua, hfind, hprep]⟩))))
  | fresh =>
  cases hrun : Sitebuilder.runAll input.resources input.actions with
  | error e =>
    exact Or.inr (Or.inr (Or.inr (Or.inr (Or.inr (Or.inl ⟨old, ua, e, rfl, rfl, hfind,
      rfl, rfl, by simp only [Sitebuilder.build, hread, hua, hfind, hprep, hrun]⟩)))))
  | ok runs =>
  by_cases hforg : (old.urls \ (ua.map Prod.fst).toFinset).Nonempty
  · refine Or.inr (Or.inr (Or.inr (Or.inr (Or.inr (Or.inr (Or.inl
      ⟨old, ua, runs, rfl, rfl, hfind, rfl, rfl, hforg, ?_⟩))))))
    simp only [Sitebuilder.build, hread, hua, hfind, hprep, hrun]
    rw [if_pos hforg]
  · have hempty : old.urls \ (ua.map Prod.fst).toFinset = ∅ :=
      Finset.not_nonempty_iff_eq_empty.mp hforg
    refine Or.inr (Or.inr (Or.inr (Or.inr (Or.inr (Or.inr (Or.inr
      ⟨old, ua, runs, rfl, rfl, hfind, rfl, rfl, hempty, ?_⟩))))))
    have hw := write_ok_of_read_ok input.urlsFileContent old
      ⟨(ua.map Prod.fst).toFinset⟩ hread
    simp only [Sitebuilder.build, hread, hua, hfind, hprep, hrun]
    rw [if_neg hforg, hw]

/-- C2: when the destination path is a directory that does not contain the
marker file, every build outcome leaves the destination (and ledger)
untouched, and a normal return carries exit code 1; moreover, for every
build whatsoever, the destination is replaced only when it was absent or was
a directory containing the marker file, and the freshly created directory
holds the marker file first, before any action's writes. -/
theorem c2_destination_safety (input : Sitebuilder.BuildInput)
    (files : List (PyPath × String))
    (hdir : input.dest = .directory files)
    (hnomark : files.any (fun f => f.1 = Sitebuilder.markerRelpath) = false) :
    (∀ code logs res st, Sitebuilder.build input = .exited code logs res st →
      code = 1 ∧ st.dest = input.dest ∧ st.urlsFile = input.urlsFileContent) ∧
    (∀ e logs st, Sitebuilder.build input = .raised e logs st →
      st.dest = input.dest ∧ st.urlsFile = input.urlsFileContent) ∧
    (∀ (input2 : Sitebuilder.BuildInput) code logs res st,
      Sitebuilder.build input2 = .exited code logs res st → st.dest ≠ input2.dest →
      (input2.dest = .absent ∨
        ∃ fs, input2.dest = .directory fs ∧
          fs.any (fun f => f.1 = Sitebuilder.markerRelpath) = true) ∧
      ∃ w, st.dest = .directory ((Sitebuilder.markerRelpath, "") :: w)) := by
  have hprep : Sitebuilder.prepDest input.dest = .refuse := by
    rw [hdir]
    simp only [Sitebuilder.prepDest]
    rw [if_neg (by simp [hnomark])]
  refine ⟨?_, ?_, ?_⟩
  · intro code logs res st h
    rcases build_cases input with ⟨e, _, hb⟩ | ⟨old, e, _, _, hb⟩ |
      ⟨old, ua, url, names, _, _, _, hb⟩ | ⟨old, ua, _, _, _, _, hb⟩ |
      ⟨old, ua, _, _, _, hp, hb⟩ | ⟨old, ua, e, _, _, _, hp, _, hb⟩ |
      ⟨old, ua, runs, _, _, _, hp, _, _, hb⟩ | ⟨old, ua, runs, _, _, _, hp, _, _, hb⟩
    · rw [hb] at h
      exact absurd h (by simp)
    · rw [hb] at h
      exact absurd h (by simp)
    · rw [hb] at h
      injection h with hc _ _ hs
      exact ⟨hc.symm, by rw [← hs], by rw [← hs]⟩
    · rw [hb] at h
      injection h with hc _ _ hs
      exact ⟨hc.symm, by rw [← hs], by rw [← hs]⟩
    · exact absurd (hprep.symm.trans hp) (by simp)
    · exact absurd (hprep.symm.trans hp) (by simp)
    · exact absurd (hprep.symm.trans hp) (by simp)
    · exact absurd (hprep.symm.trans hp) (by simp)
  · intro e logs st h
    rcases build_cases input with ⟨e2, _, hb⟩ | ⟨old, e2, _, _, hb⟩ |
      ⟨old, ua, url, names, _, _, _, hb⟩ | ⟨old, ua, _, _, _, _, hb⟩ |
      ⟨old, ua, _, _, _, hp, hb⟩ | ⟨old, ua, e2, _, _, _, hp, _, hb⟩ |
      ⟨old, ua, runs, _, _, _, hp, _, _, hb⟩ | ⟨old, ua, runs, _, _, _, hp, _, _, hb⟩
    · rw [hb] at h
      injection h with _ _ hs
      exact ⟨by rw [← hs], by rw [← hs]⟩
    · rw [hb] at h
      injection h with _ _ hs
      exact ⟨by rw [← hs], by rw [← hs]⟩
    · rw [hb] at h
      exact absurd h (by simp)
    · rw [hb] at h
      exact absurd h (by simp)
    · exact absurd (hprep.symm.trans hp) (by simp)
    · exact absurd (hprep.symm.trans hp) (by simp)
    · exact absurd (hprep.symm.trans hp) (by simp)
    · exact absurd (hprep.symm.trans hp) (by simp)
  · intro input2 code logs res st h hne
    rcases build_cases input2 with ⟨e, _, hb⟩ | ⟨old, e, _, _, hb⟩ |
      ⟨old, ua, url, names, _, _, _, hb⟩ | ⟨old, ua, _, _, _, _, hb⟩ |
      ⟨old, ua, _, _, _, hp, hb⟩ | ⟨old, ua, e, _, _, _, hp, _, hb⟩ |
      ⟨old, ua, runs, _, _, _, hp, _, _, hb⟩ | ⟨old, ua, runs, _, _, _, hp, _, _, hb⟩
    · rw [hb] at h
      exact absurd h (by simp)
    · rw [hb] at h
      exact absurd h (by simp)
    · rw [hb] at h
      injection h with _ _ _ hs
      exact absurd (show st.dest = input2.dest by rw [← hs]) hne
    · rw [hb] at h
      injection h with _ _ _ hs
      exact absurd (show st.dest = input2.dest by rw [← hs]) hne
    · rw [hb] at h
      exact absurd h (by simp)
    · rw [hb] at h
      exact absurd h (by simp)
    · rw [hb] at h
      injection h with _ _ _ hs
      refine ⟨?_, (runs.map Prod.snd).flatten, by rw [← hs]; rfl⟩
      cases hdest : input2.dest with
      | absent => exact Or.inl rfl
      | directory fs =>
        rw [hdest] at hp
        simp only [Sitebuilder.prepDest] at hp
        have hany : fs.any (fun f => f.1 = Sitebuilder.markerRelpath) = true := by
          by_contra hno
          rw [if_neg (by simp [Bool.not_eq_true] at hno; simp [hno])] at hp
          exact absurd hp (by simp)
        exact Or.inr ⟨fs, rfl, hany⟩
      | notADirectory =>
        rw [hdest] at hp
        exact absurd hp (by simp [Sitebuilder.prepDest])
    · rw [hb] at h
      injection h with _ _ _ hs
      refine ⟨?_, (runs.map Prod.snd).flatten, by rw [← hs]; rfl⟩
      cases hdest : input2.dest with
      | absent => exact Or.inl rfl
      | directory fs =>
        rw [hdest] at hp
        simp only [Sitebuilder.prepDest] at hp
        have hany : fs.any (fun f => f.1 = Sitebuilder.markerRelpath) = true := by
          by_contra hno
          rw [if_neg (by simp [Bool.not_eq_true] at hno; simp [hno])] at hp
          exact absurd hp (by simp)
        exact Or.inr ⟨fs, rfl, hany⟩
      | notADirectory =>
        rw [hdest] at hp
        exact absurd hp (by simp [Sitebuilder.prepDest])

/-- Witness for C2: a pre-existing markerless directory with one user file
makes the build exit 1 leaving destination and ledger untouched. -/
theorem c2_destination_safety_witness :
    Sitebuilder.build
        { actions := [], dest := .directory [((⟨false, ["user.txt"]⟩ : PyPath), "precious")],
          urlsFileContent := none, resources := ⟨[]⟩ }
      = .exited 1 [Sitebuilder.markerRefusalMsg] []
          ⟨.directory [(⟨false, ["user.txt"]⟩, "precious")], none⟩ ∧
    (1 = 1 ∧
      (Sitebuilder.DestState.directory [((⟨false, ["user.txt"]⟩ : PyPath), "precious")])
        = .directory [(⟨false, ["user.txt"]⟩, "precious")] ∧
      (none : Option String) = none) :=
  ⟨by decide,
   (c2_destination_safety
      { actions := [], dest := .directory [((⟨false, ["user.txt"]⟩ : PyPath), "precious")],
        urlsFileContent := none, resources := ⟨[]⟩ }
      [(⟨false, ["user.txt"]⟩, "precious")] rfl (by decide)).1
     1 [Sitebuilder.markerRefusalMsg] []
     ⟨.directory [(⟨false, ["user.txt"]⟩, "precious")], none⟩ (by decide)⟩

/-- C3 counterexample: when the destination path exists and is not a
directory, the build raises FileExistsError instead of returning exit
code 1. -/
theorem c3_counterexample :
    Sitebuilder.build
        { actions := [], dest := .notADirectory, urlsFileContent := none, resources := ⟨[]⟩ }
      = .raised (.fileExistsError "dest dir exists and is not a directory: build") []
          ⟨.notADirectory, none⟩ := by decide

/-- C3 (amended): build returns only exit codes 0 and 1; it returns 0 (with
the ledger rewritten) exactly when ledger read, URL computation, conflict
check, destination preparation and action dispatch all succeed and the audit
finds no forgotten URL — per-action failures do not affect the exit code;
and a destination that exists as a non-directory makes build raise
FileExistsError (after the earlier phases pass) rather than return 1. -/
theorem c3_exit_codes (input : Sitebuilder.BuildInput) :
    (∀ code logs res st, Sitebuilder.build input = .exited code logs res st →
      code = 0 ∨ code = 1) ∧
    ((∃ logs res st, Sitebuilder.build input = .exited 0 logs res st) ↔
      (∃ old ua runs, Urls.read input.urlsFileContent = .ok old ∧
        Sitebuilder.computeUrlActions input.actions = .ok ua ∧
        ua.find? (fun e => decide (1 < e.2.length)) = none ∧
        Sitebuilder.prepDest input.dest = .fresh ∧
        Sitebuilder.runAll input.resources input.actions = .ok runs ∧
        old.urls \ (ua.map Prod.fst).toFinset = ∅)) ∧
    (∀ logs res st, Sitebuilder.build input = .exited 0 logs res st →
      ∃ new : Urls, st.urlsFile = some new.writeContent) ∧
    (∀ old ua, Urls.read input.urlsFileContent = .ok old →
      Sitebuilder.computeUrlActions input.actions = .ok ua →
      ua.find? (fun e => decide (1 < e.2.length)) = none →
      input.dest = .notADirectory →
      Sitebuilder.build input
        = .raised (.fileExistsError "dest dir exists and is not a directory: build") []
            ⟨input.dest, input.urlsFileContent⟩) := by
  refine ⟨?_, ⟨?_, ?_⟩, ?_, ?_⟩
  · intro code logs res st h
    rcases build_cases input with ⟨e, _, hb⟩ | ⟨old, e, _, _, hb⟩ |
      ⟨old, ua, url, names, _, _, _, hb⟩ | ⟨old, ua, _, _, _, _, hb⟩ |
      ⟨old, ua, _, _, _, _, hb⟩ | ⟨old, ua, e, _, _, _, _, _, hb⟩ |
      ⟨old, ua, runs, _, _, _, _, _, _, hb⟩ | ⟨old, ua, runs, _, _, _, _, _, _, hb⟩
    · rw [hb] at h
      exact absurd h (by simp)
    · rw [hb] at h
      exact absurd h (by simp)
    · rw [hb] at h
      injection h with hc _ _ _
      exact Or.inr hc.symm
    · rw [hb] at h
      injection h with hc _ _ _
      exact Or.inr hc.symm
    · rw [hb] at h
      exact absurd h (by simp)
    · rw [hb] at h
      exact absurd h (by simp)
    · rw [hb] at h
      injection h with hc _ _ _
      exact Or.inr hc.symm
    · rw [hb] at h
      injection h with hc _ _ _
      exact Or.inl hc.symm
  · intro hex
    obtain ⟨logs, res, st, h⟩ := hex
    rcases build_cases input with ⟨e, _, hb⟩ | ⟨old, e, _, _, hb⟩ |
      ⟨old, ua, url, names, _, _, _, hb⟩ | ⟨old, ua, _, _, _, _, hb⟩ |
      ⟨old, ua, _, _, _, _, hb⟩ | ⟨old, ua, e, _, _, _, _, _, hb⟩ |
      ⟨old, ua, runs, h1, h2, h3, h4, h5, h6, hb⟩ |
      ⟨old, ua, runs, h1, h2, h3, h4, h5, h6, hb⟩
    · rw [hb] at h
      exact absurd h (by simp)
    · rw [hb] at h
      exact absurd h (by simp)
    · rw [hb] at h
      injection h with hc _ _ _
      exact absurd hc (by decide)
    · rw [hb] at h
      injection h with hc _ _ _
      exact absurd hc (by decide)
    · rw [hb] at h
      exact absurd h (by simp)
    · rw [hb] at h
      exact absurd h (by simp)
    · rw [hb] at h
      injection h with hc _ _ _
      exact absurd hc (by decide)
    · exact ⟨old, ua, runs, h1, h2, h3, h4, h5, h6⟩
  · intro hc
    obtain ⟨old, ua, runs, h1, h2, h3, h4, h5, h6⟩ := hc
    have hw := write_ok_of_read_ok input.urlsFileContent old
      ⟨(ua.map Prod.fst).toFinset⟩ h1
    refine ⟨(runs.map Prod.fst).flatMap Sitebuilder.resultLogLines, runs.map Prod.fst,
      ⟨.directory (Sitebuilder.freshDest ++ (runs.map Prod.snd).flatten),
       some (Urls.writeContent ⟨(ua.map Prod.fst).toFinset⟩)⟩, ?_⟩
    simp only [Sitebuilder.build, h1, h2, h3, h4, h5]
    rw [if_neg (by rw [h6]; exact Finset.not_nonempty_empty), hw]
  · intro logs res st h
    rcases build_cases input with ⟨e, _, hb⟩ | ⟨old, e, _, _, hb⟩ |
      ⟨old, ua, url, names, _, _, _, hb⟩ | ⟨old, ua, _, _, _, _, hb⟩ |
      ⟨old, ua, _, _, _, _, hb⟩ | ⟨old, ua, e, _, _, _, _, _, hb⟩ |
      ⟨old, ua, runs, _, _, _, _, _, _, hb⟩ | ⟨old, ua, runs, _, _, _, _, _, _, hb⟩
    · rw [hb] at h
      exact absurd h (by simp)
    · rw [hb] at h
      exact absurd h (by simp)
    · rw [hb] at h
      injection h with hc _ _ _
      exact absurd hc (by decide)
    · rw [hb] at h
      injection h with hc _ _ _
      exact absurd hc (by decide)
    · rw [hb] at h
      exact absurd h (by simp)
    · rw [hb] at h
      exact absurd h (by simp)
    · rw [hb] at h
      injection h with hc _ _ _
      exact absurd hc (by decide)
    · rw [hb] at h
      injection h with _ _ _ hs
      exact ⟨⟨(ua.map Prod.fst).toFinset⟩, by rw [← hs]⟩
  · intro old ua hread hua hfind hdest
    have hp : Sitebuilder.prepDest input.dest = .raiseNotDir := by
      rw [hdest]
      rfl
    simp only [Sitebuilder.build, hread, hua, hfind, hp]

/-- Witness for C3: an empty build against an absent destination exits 0. -/
theorem c3_exit_codes_witness :
    ∃ logs res st,
      Sitebuilder.build
          { actions := [], dest := .absent, urlsFileContent := none, resources := ⟨[]⟩ }
        = .exited 0 logs res st :=
  (c3_exit_codes
      { actions := [], dest := .absent, urlsFileContent := none, resources := ⟨[]⟩ }).2.1.mpr
    ⟨⟨∅⟩, [], [], rfl, rfl, rfl, rfl, rfl, by decide⟩

/-- C6: the audit computes new_urls as the set of UrlPath values claimed by
all actions regardless of execution outcome; with forgotten = old minus new
non-empty the build exits 1 reporting every forgotten UrlPath and leaves the
ledger unchanged, and with forgotten empty it writes new_urls as the updated
ledger. -/
theorem c6_forgotten_audit (input : Sitebuilder.BuildInput) (old : Urls)
    (ua : List (UrlPath × List String)) (runs : List (Result × List (PyPath × String)))
    (hread : Urls.read input.urlsFileContent = .ok old)
    (hua : Sitebuilder.computeUrlActions input.actions = .ok ua)
    (hnoconf : ua.find? (fun e => decide (1 < e.2.length)) = none)
    (hprep : Sitebuilder.prepDest input.dest = .fresh)
    (hrun : Sitebuilder.runAll input.resources input.actions = .ok runs) :
    (∀ a ∈ input.actions, ∀ u, Sitebuilder.Action.url a = .ok u
      → u ∈ (ua.map Prod.fst).toFinset) ∧
    ((old.urls \ (ua.map Prod.fst).toFinset).Nonempty →
      Sitebuilder.build input
        = .exited 1
            ((runs.map Prod.fst).flatMap Sitebuilder.resultLogLines
              ++ (sortedUrlList (old.urls \ (ua.map Prod.fst).toFinset)).map
                   Sitebuilder.forgottenMsg)
            (runs.map Prod.fst)
            ⟨.directory (Sitebuilder.freshDest ++ (runs.map Prod.snd).flatten),
             input.urlsFileContent⟩ ∧
      ∀ u ∈ old.urls \ (ua.map Prod.fst).toFinset,
        Sitebuilder.forgottenMsg u
          ∈ (runs.map Prod.fst).flatMap Sitebuilder.resultLogLines
              ++ (sortedUrlList (old.urls \ (ua.map Prod.fst).toFinset)).map
                   Sitebuilder.forgottenMsg) ∧
    (old.urls \ (ua.map Prod.fst).toFinset = ∅ →
      Sitebuilder.build input
        = .exited 0 ((runs.map Prod.fst).flatMap Sitebuilder.resultLogLines)
            (runs.map Prod.fst)
            ⟨.directory (Sitebuilder.freshDest ++ (runs.map Prod.snd).flatten),
             some (Urls.writeContent ⟨(ua.map Prod.fst).toFinset⟩)⟩) := by
  refine ⟨?_, ?_, ?_⟩
  · intro a ha u hu
    rw [List.mem_toFinset]
    exact computeUrlActions_mem input.actions ua hua a ha u hu
  · intro hne
    refine ⟨?_, ?_⟩
    · simp only [Sitebuilder.build, hread, hua, hnoconf, hprep, hrun]
      rw [if_pos hne]
    · intro u hu
      exact List.mem_append.mpr
        (Or.inr (List.mem_map.mpr ⟨u, (mem_sortedUrlList _ u).mpr hu, rfl⟩))
  · intro hempty
    have hw := write_ok_of_read_ok input.urlsFileContent old
      ⟨(ua.map Prod.fst).toFinset⟩ hread
    simp only [Sitebuilder.build, hread, hua, hnoconf, hprep, hrun]
    rw [if_neg (by rw [hempty]; exact Finset.not_nonempty_empty), hw]

/-- Witness for C6: a ledger holding /old and a build producing only /a.txt
exits 1 reporting /old as forgotten, with the ledger file left unchanged. -/
theorem c6_forgotten_audit_witness :
    Urls.read (some "# sitebuilder URLs\n/old\n") = .ok ⟨insert ⟨"/old"⟩ ∅⟩ ∧
    Sitebuilder.build
        { actions := [.copy (parsePyPath "a.txt") "x"], dest := .absent,
          urlsFileContent := some "# sitebuilder URLs\n/old\n", resources := ⟨[]⟩ }
      = .exited 1
          [Result.str ({ success := true, warnings := [], src := "src/a.txt", dest := "build/a.txt" } : Result),
           Sitebuilder.forgottenMsg ⟨"/old"⟩]
          [{ success := true, warnings := [], src := "src/a.txt", dest := "build/a.txt" }]
          ⟨.directory [(Sitebuilder.markerRelpath, ""), (⟨false, ["a.txt"]⟩, "x")],
           some "# sitebuilder URLs\n/old\n"⟩ :=
  ⟨rfl,
   ((c6_forgotten_audit
      { actions := [.copy (parsePyPath "a.txt") "x"], dest := .absent,
        urlsFileContent := some "# sitebuilder URLs\n/old\n", resources := ⟨[]⟩ }
      (⟨insert (⟨"/old"⟩ : UrlPath) ∅⟩ : Urls)
      [((⟨"/a.txt"⟩ : UrlPath), ["Copy(source=a.txt)"])]
      ([({ success := true, warnings := [], src := "src/a.txt", dest := "build/a.txt" },
         [((⟨false, ["a.txt"]⟩ : PyPath), "x")])]
        : List (Result × List (PyPath × String)))
      rfl rfl rfl rfl rfl).2.1 ⟨⟨"/old"⟩, by decide⟩).1⟩

theorem run_indexHtml_fail (res : Resources) (dirs : List PyPath) (rp : PyPath)
    (meta : List (String × String)) (contents : String) (t : Transform) (msg : String)
    (drel : PyPath)
    (hd : Sitebuilder.indexHtmlDestPath rp = .ok drel)
    (ht : t rp.name meta contents res = .error msg) :
    Sitebuilder.Action.run res dirs (.indexHtml rp meta contents t)
      = .ok ({ success := false, warnings := [msg], src := "src/" ++ rp.str,
               dest := "build/" ++ drel.str }, [], dirAndAncestors drel.parent) := by
  simp only [Sitebuilder.Action.run, hd, ht]

theorem run_ok_of_transformOk (res : Resources) (b : Sitebuilder.Action)
    (h : Sitebuilder.Action.transformOk res b) :
    ∃ r w nd, (∀ dirs, Sitebuilder.Action.run res dirs b = .ok (r, w, nd)) ∧
      r.success = true := by
  cases b with
  | copy p c =>
    exact ⟨{ success := true, warnings := [], src := "src/" ++ p.str,
             dest := "build/" ++ p.str }, [(p, c)], dirAndAncestors p.parent,
           fun dirs => rfl, rfl⟩
  | redirect o n =>
    refine ⟨{ success := true, warnings := [], src := "(generated-redirect)",
              dest := "build/" ++ (Sitebuilder.redirectDestRelpath o).str },
            [(Sitebuilder.redirectDestRelpath o, Sitebuilder.REDIRECT_TEMPLATE n)], [],
            fun dirs => ?_, rfl⟩
    have h2 : (Sitebuilder.redirectDestRelpath o).parent.parts = [] ∧
        (Sitebuilder.redirectDestRelpath o).parent.absolute = false := h
    simp only [Sitebuilder.Action.run]
    rw [if_pos (Or.inl h2)]
  | indexHtml rp meta contents t =>
    obtain ⟨⟨out, hout⟩, d, hd⟩ := h
    exact ⟨{ success := true, warnings := [], src := "src/" ++ rp.str,
             dest := "build/" ++ d.str }, [(d, out)], dirAndAncestors d.parent,
           fun dirs => by simp only [Sitebuilder.Action.run, hd, hout], rfl⟩

theorem runAllLoop_ok_of_transformOk (res : Resources) :
    ∀ l : List Sitebuilder.Action, (∀ b ∈ l, Sitebuilder.Action.transformOk res b) →
      ∃ runs, (∀ pr ∈ runs, pr.1.success = true) ∧
        (∀ b ∈ l, ∀ r w nd,
          Sitebuilder.Action.run res [] b = .ok (r, w, nd) → (r, w) ∈ runs) ∧
        ∀ dirs, ∃ dirs2, Sitebuilder.runAllLoop res l dirs = .ok (runs, dirs2) := by
  intro l
  induction l with
  | nil =>
    exact fun _ => ⟨[], by simp, by simp, fun dirs => ⟨dirs, rfl⟩⟩
  | cons b rest ih =>
    intro h
    obtain ⟨r, w, nd, hr, hs⟩ := run_ok_of_transformOk res b (h b (List.mem_cons_self b rest))
    obtain ⟨runs, hall, hmem, hloop⟩ := ih (fun x hx => h x (List.mem_cons_of_mem b hx))
    refine ⟨(r, w) :: runs, ?_, ?_, ?_⟩
    · intro pr hpr
      rcases List.mem_cons.mp hpr with hpr | hpr
      · rw [hpr]
        exact hs
      · exact hall pr hpr
    · intro x hx r2 w2 nd2 hr2
      rcases List.mem_cons.mp hx with hx | hx
      · subst hx
        rw [hr []] at hr2
        have h3 : (r, w, nd) = (r2, w2, nd2) := Except.ok.inj hr2
        injection h3 with h4 h5
        injection h5 with h6 h7
        subst h4
        subst h6
        exact List.mem_cons_self _ _
      · exact List.mem_cons_of_mem _ (hmem x hx r2 w2 nd2 hr2)
    · intro dirs
      obtain ⟨dirs2, hl⟩ := hloop (dirs ++ nd)
      exact ⟨dirs2, by simp only [Sitebuilder.runAllLoop, hr dirs, hl]⟩

theorem runAllLoop_append (res : Resources) (l1 l2 : List Sitebuilder.Action) :
    ∀ (dirs : List PyPath) (r1 : List (Result × List (PyPath × String))) (d1 : List PyPath)
      (r2 : List (Result × List (PyPath × String))) (d2 : List PyPath),
      Sitebuilder.runAllLoop res l1 dirs = .ok (r1, d1) →
      Sitebuilder.runAllLoop res l2 d1 = .ok (r2, d2) →
      Sitebuilder.runAllLoop res (l1 ++ l2) dirs = .ok (r1 ++ r2, d2) := by
  induction l1 with
  | nil =>
    intro dirs r1 d1 r2 d2 h1 h2
    replace h1 : (Except.ok (([] : List (Result × List (PyPath × String))), dirs)
        : Except PyExc _) = .ok (r1, d1) := h1
    have h3 := Except.ok.inj h1
    injection h3 with h4 h5
    subst h4
    subst h5
    exact h2
  | cons a rest ih =>
    intro dirs r1 d1 r2 d2 h1 h2
    rw [Sitebuilder.runAllLoop] at h1
    cases hr : Sitebuilder.Action.run res dirs a with
    | error e =>
      simp only [hr] at h1
      exact absurd h1 (by simp)
    | ok triple =>
      obtain ⟨r, w, nd⟩ := triple
      simp only [hr] at h1
      cases hrec : Sitebuilder.runAllLoop res rest (dirs ++ nd) with
      | error e =>
        simp only [hrec] at h1
        exact absurd h1 (by simp)
      | ok p =>
        obtain ⟨runs, dmid⟩ := p
        simp only [hrec] at h1
        have h3 := Except.ok.inj h1
        injection h3 with h4 h5
        subst h5
        rw [← h4, List.cons_append, Sitebuilder.runAllLoop]
        simp only [hr, ih (dirs ++ nd) runs dmid r2 d2 hrec h2]
        rfl

theorem runAll_eq_of_loop (res : Resources) (l : List Sitebuilder.Action)
    (runs : List (Result × List (PyPath × String))) (d : List PyPath)
    (h : Sitebuilder.runAllLoop res l [] = .ok (runs, d)) :
    Sitebuilder.runAll res l = .ok runs := by
  unfold Sitebuilder.runAll
  simp only [h]

/-- C4 (amended): when exactly one action's transformation raises, the
exception is caught and converted into a failed Result carrying the rendered
message as its only warning and does not propagate; all other actions still
complete and are reported as successful, and the destination tree contains
every other action's output — but the failure is signalled only in that
per-action Result: the build's exit code is unaffected and is 0 when the
forgotten-URL audit passes (the original claim said the overall build
signals failure). -/
theorem c4_failure_isolation (input : Sitebuilder.BuildInput)
    (pre post : List Sitebuilder.Action) (rp : PyPath) (meta : List (String × String))
    (contents : String) (t : Transform) (msg : String) (drel : PyPath)
    (old : Urls) (ua : List (UrlPath × List String))
    (hact : input.actions = pre ++ .indexHtml rp meta contents t :: post)
    (hd : Sitebuilder.indexHtmlDestPath rp = .ok drel)
    (ht : t rp.name meta contents input.resources = .error msg)
    (hok : ∀ b ∈ pre ++ post, Sitebuilder.Action.transformOk input.resources b)
    (hread : Urls.read input.urlsFileContent = .ok old)
    (hua : Sitebuilder.computeUrlActions input.actions = .ok ua)
    (hnoconf : ua.find? (fun e => decide (1 < e.2.length)) = none)
    (hprep : Sitebuilder.prepDest input.dest = .fresh)
    (hforg : old.urls \ (ua.map Prod.fst).toFinset = ∅) :
    ∃ runsPre runsPost,
      Sitebuilder.runAll input.resources pre = .ok runsPre ∧
      Sitebuilder.runAll input.resources post = .ok runsPost ∧
      (∀ dirs, Sitebuilder.Action.run input.resources dirs (.indexHtml rp meta contents t)
        = .ok ({ success := false, warnings := [msg], src := "src/" ++ rp.str,
                 dest := "build/" ++ drel.str }, [], dirAndAncestors drel.parent)) ∧
      (∀ pr ∈ runsPre ++ runsPost, pr.1.success = true) ∧
      Sitebuilder.build input
        = .exited 0
            (((runsPre ++ ({ success := false, warnings := [msg], src := "src/" ++ rp.str,
                             dest := "build/" ++ drel.str }, []) :: runsPost).map
                Prod.fst).flatMap Sitebuilder.resultLogLines)
            (runsPre.map Prod.fst
              ++ { success := false, warnings := [msg], src := "src/" ++ rp.str,
                   dest := "build/" ++ drel.str } :: runsPost.map Prod.fst)
            ⟨.directory (Sitebuilder.freshDest
                ++ ((runsPre ++ ({ success := false, warnings := [msg],
                                   src := "src/" ++ rp.str,
                                   dest := "build/" ++ drel.str }, []) :: runsPost).map
                      Prod.snd).flatten),
             some (Urls.writeContent ⟨(ua.map Prod.fst).toFinset⟩)⟩ ∧
      (∀ b ∈ pre ++ post, ∀ r w nd,
        Sitebuilder.Action.run input.resources [] b = .ok (r, w, nd) → ∀ fw ∈ w,
          fw ∈ Sitebuilder.freshDest
            ++ ((runsPre ++ ({ success := false, warnings := [msg],
                               src := "src/" ++ rp.str,
                               dest := "build/" ++ drel.str }, []) :: runsPost).map
                  Prod.snd).flatten) := by
  obtain ⟨runsPre, hpreok, hpremem, hpreloop⟩ := runAllLoop_ok_of_transformOk
    input.resources pre (fun b hb => hok b (List.mem_append.mpr (Or.inl hb)))
  obtain ⟨runsPost, hpostok, hpostmem, hpostloop⟩ := runAllLoop_ok_of_transformOk
    input.resources post (fun b hb => hok b (List.mem_append.mpr (Or.inr hb)))
  have hfail := fun dirs =>
    run_indexHtml_fail input.resources dirs rp meta contents t msg drel hd ht
  obtain ⟨dpre, hpreL⟩ := hpreloop []
  obtain ⟨dpost, hpostL⟩ := hpostloop (dpre ++ dirAndAncestors drel.parent)
  obtain ⟨dpost0, hpostL0⟩ := hpostloop []
  have hmidL : Sitebuilder.runAllLoop input.resources
      (.indexHtml rp meta contents t :: post) dpre
      = .ok (({ success := false, warnings := [msg], src := "src/" ++ rp.str,
                dest := "build/" ++ drel.str }, []) :: runsPost, dpost) := by
    simp only [Sitebuilder.runAllLoop, hfail dpre, hpostL]
  have htotalL : Sitebuilder.runAllLoop input.resources input.actions []
      = .ok (runsPre ++ ({ success := false, warnings := [msg], src := "src/" ++ rp.str,
                           dest := "build/" ++ drel.str }, []) :: runsPost, dpost) := by
    rw [hact]
    exact runAllLoop_append input.resources pre _ [] runsPre dpre _ dpost hpreL hmidL
  have htotal := runAll_eq_of_loop input.resources input.actions _ _ htotalL
  refine ⟨runsPre, runsPost,
    runAll_eq_of_loop input.resources pre runsPre dpre hpreL,
    runAll_eq_of_loop input.resources post runsPost dpost0 hpostL0,
    hfail, ?_, ?_, ?_⟩
  · intro pr hpr
    rcases List.mem_append.mp hpr with hpr | hpr
    · exact hpreok pr hpr
    · exact hpostok pr hpr
  · have hw := write_ok_of_read_ok input.urlsFileContent old
      ⟨(ua.map Prod.fst).toFinset⟩ hread
    simp only [Sitebuilder.build, hread, hua, hnoconf, hprep, htotal]
    rw [if_neg (by rw [hforg]; exact Finset.not_nonempty_empty), hw]
    rw [List.map_append, List.map_cons]
  · intro b hb r w nd hr fw hfw
    have hmemtotal : (r, w) ∈ runsPre
        ++ ({ success := false, warnings := [msg], src := "src/" ++ rp.str,
              dest := "build/" ++ drel.str }, []) :: runsPost := by
      rcases List.mem_append.mp hb with hb | hb
      · exact List.mem_append.mpr (Or.inl (hpremem b hb r w nd hr))
      · exact List.mem_append.mpr
          (Or.inr (List.mem_cons_of_mem _ (hpostmem b hb r w nd hr)))
    refine List.mem_append.mpr (Or.inr ?_)
    exact List.mem_flatten.mpr ⟨w, List.mem_map.mpr ⟨(r, w), hmemtotal, rfl⟩, hfw⟩

/-- C4 counterexample: a batch where exactly one action's transformation
raises still ends with exit code 0 and an updated ledger — the build does
not signal failure, contrary to the claim. -/
theorem c4_counterexample :
    Sitebuilder.build
        { actions := [.copy (parsePyPath "a.txt") "ha",
                      .indexHtml (parsePyPath "b.md") [] "body"
                        (fun _ _ _ _ => .error "ValueError: boom")],
          dest := .absent, urlsFileContent := none, resources := ⟨[]⟩ }
      = .exited 0
          [Result.str ({ success := true, warnings := [], src := "src/a.txt", dest := "build/a.txt" } : Result),
           Result.str ({ success := false, warnings := ["ValueError: boom"], src := "src/b.md", dest := "build/b/index.html" } : Result),
           yellow ("     ↪ " ++ "ValueError: boom")]
          [{ success := true, warnings := [], src := "src/a.txt", dest := "build/a.txt" },
           { success := false, warnings := ["ValueError: boom"], src := "src/b.md",
             dest := "build/b/index.html" }]
          ⟨.directory [(Sitebuilder.markerRelpath, ""), (⟨false, ["a.txt"]⟩, "ha")],
           some "# sitebuilder URLs\n/a.txt\n/b/index.html\n"⟩ := by decide

/-- Witness for C4: one Copy action plus one failing transformation. -/
theorem c4_failure_isolation_witness :
    ∃ runsPre runsPost,
      Sitebuilder.runAll ⟨[]⟩ [.copy (parsePyPath "a.txt") "ha"] = .ok runsPre ∧
      Sitebuilder.runAll ⟨[]⟩ [] = .ok runsPost ∧
      (∀ dirs, Sitebuilder.Action.run ⟨[]⟩ dirs
          (.indexHtml (parsePyPath "b.md") [] "body"
            (fun _ _ _ _ => .error "ValueError: boom"))
        = .ok ({ success := false, warnings := ["ValueError: boom"],
                 src := "src/" ++ (parsePyPath "b.md").str,
                 dest := "build/" ++ (⟨false, ["b", "index.html"]⟩ : PyPath).str }, [],
               dirAndAncestors (⟨false, ["b", "index.html"]⟩ : PyPath).parent)) ∧
      (∀ pr ∈ runsPre ++ runsPost, pr.1.success = true) ∧
      Sitebuilder.build
          { actions := [.copy (parsePyPath "a.txt") "ha",
                        .indexHtml (parsePyPath "b.md") [] "body"
                          (fun _ _ _ _ => .error "ValueError: boom")],
            dest := .absent, urlsFileContent := none, resources := ⟨[]⟩ }
        = .exited 0
            (((runsPre ++ ({ success := false, warnings := ["ValueError: boom"],
                             src := "src/" ++ (parsePyPath "b.md").str,
                             dest := "build/" ++ (⟨false, ["b", "index.html"]⟩ : PyPath).str },
                            []) :: runsPost).map Prod.fst).flatMap Sitebuilder.resultLogLines)
            (runsPre.map Prod.fst
              ++ { success := false, warnings := ["ValueError: boom"],
                   src := "src/" ++ (parsePyPath "b.md").str,
                   dest := "build/" ++ (⟨false, ["b", "index.html"]⟩ : PyPath).str }
                 :: runsPost.map Prod.fst)
            ⟨.directory (Sitebuilder.freshDest
                ++ ((runsPre ++ ({ success := false, warnings := ["ValueError: boom"],
                                   src := "src/" ++ (parsePyPath "b.md").str,
                                   dest := "build/" ++ (⟨false, ["b", "index.html"]⟩ : PyPath).str },
                                  []) :: runsPost).map Prod.snd).flatten),
             some (Urls.writeContent
               ⟨(([((⟨"/a.txt"⟩ : UrlPath), ["Copy(source=a.txt)"]),
                   ((⟨"/b/index.html"⟩ : UrlPath), ["IndexHtmlProcessor(source=b.md)"])].map
                    Prod.fst).toFinset)⟩)⟩ ∧
      (∀ b ∈ ([.copy (parsePyPath "a.txt") "ha"] : List Sitebuilder.Action) ++ [], ∀ r w nd,
        Sitebuilder.Action.run ⟨[]⟩ [] b = .ok (r, w, nd) → ∀ fw ∈ w,
          fw ∈ Sitebuilder.freshDest
            ++ ((runsPre ++ ({ success := false, warnings := ["ValueError: boom"],
                               src := "src/" ++ (parsePyPath "b.md").str,
                               dest := "build/" ++ (⟨false, ["b", "index.html"]⟩ : PyPath).str },
                              []) :: runsPost).map Prod.snd).flatten) :=
  c4_failure_isolation
    { actions := [.copy (parsePyPath "a.txt") "ha",
                  .indexHtml (parsePyPath "b.md") [] "body"
                    (fun _ _ _ _ => .error "ValueError: boom")],
      dest := .absent, urlsFileContent := none, resources := ⟨[]⟩ }
    [.copy (parsePyPath "a.txt") "ha"] []
    (parsePyPath "b.md") [] "body" (fun _ _ _ _ => .error "ValueError: boom")
    "ValueError: boom" ⟨false, ["b", "index.html"]⟩ ⟨∅⟩
    [((⟨"/a.txt"⟩ : UrlPath), ["Copy(source=a.txt)"]),
     ((⟨"/b/index.html"⟩ : UrlPath), ["IndexHtmlProcessor(source=b.md)"])]
    rfl (by decide) rfl
    (by
      intro b hb
      rcases List.mem_append.mp hb with hb | hb
      · rw [List.mem_singleton.mp hb]
        exact trivial
      · exact absurd hb (List.not_mem_nil b))
    rfl (by decide) (by decide) rfl (Finset.empty_sdiff _)
